import Mathlib

/-!
# StreamingSampler: a shallow embedding of `Source/StreamingSampler.{h,cpp}`

Conventions of the embedding.

* `float` / `double` values are rationals (`ℚ`) and every arithmetic operation is exact;
  `(int) x` is truncation towards zero.
* `int` / `int64` values are unbounded (`ℕ` where the source only ever uses the value as a
  size or as an offset into a buffer, `ℤ` elsewhere); no wrap-around is modelled.
* An `AudioSampleBuffer` with two channels is a length together with one total function per
  channel; a read or write at an offset is the function at that offset.
* `readBuffer` / `writeBuffer` are pointers in the source; here they are names of the buffers
  they can point at.
* The background `ThreadPool` is the counter `jobsInPool` of submitted, unfinished refill jobs
  of this loader; a job runs atomically (`SampleLoader.runJob`).
* `SampleLoader.trace` is a log (most recent entry first) of the calls whose order the
  properties below talk about.  No source function reads it.
* The build is the one of the header: `STANDALONE 1`, `USE_BACKGROUND_THREAD 1`,
  `OVERWRITE_BUFFER_WITH_VOICE_DATA 0`.  A `jassert` has no effect (release build);
  `ScopedLock`, `fileName`, `midiNotes`, `sampleRate`, `lastPosition` and the clock readings
  of `runJob` do not influence the modelled members and are left out.
-/

namespace StreamingSampler

/-! ## Constants (`StreamingSampler.h`, lines 62-69) -/

/-- The constant `#define MAX_SAMPLER_PITCH 8`. -/
def MAX_SAMPLER_PITCH : ℕ := 8

/-- The constant `#define PRELOAD_SIZE 11000`. -/
def PRELOAD_SIZE : ℕ := 11000

/-- The constant `#define BUFFER_SIZE_FOR_STREAM_BUFFERS 11000`. -/
def BUFFER_SIZE_FOR_STREAM_BUFFERS : ℕ := 11000

/-- The C++ conversion `(int) x`: truncation towards zero. -/
def truncToInt (x : ℚ) : ℤ := if 0 ≤ x then ⌊x⌋ else ⌈x⌉

/-- JUCE `jmin (a, b)`, which is `(b < a) ? b : a`. -/
def jmin (a b : ℚ) : ℚ := if b < a then b else a

/-- JUCE `jmax (a, b)`, which is `(a < b) ? b : a`. -/
def jmax (a b : ℚ) : ℚ := if a < b then b else a

/-! ## Buffers -/

/-- A two-channel `AudioSampleBuffer`. -/
structure AudioSampleBuffer where
  numSamples : ℕ
  ch0 : ℕ → ℚ
  ch1 : ℕ → ℚ

/-- The constructor `AudioSampleBuffer (2, n)`. -/
def AudioSampleBuffer.alloc (n : ℕ) : AudioSampleBuffer :=
  { numSamples := n, ch0 := fun _ => 0, ch1 := fun _ => 0 }

/-- The method `AudioSampleBuffer::clear ()`. -/
def AudioSampleBuffer.clear (b : AudioSampleBuffer) : AudioSampleBuffer :=
  { b with ch0 := fun _ => 0, ch1 := fun _ => 0 }

/-- The call `FloatVectorOperations::copy (dest + destOffset, src + srcOffset, num)`:
the channel `dest` after the copy. -/
def FloatVectorOperations.copy (dest : ℕ → ℚ) (destOffset : ℕ) (src : ℕ → ℚ)
    (srcOffset num : ℕ) : ℕ → ℚ :=
  fun i => if destOffset ≤ i ∧ i < destOffset + num then src (srcOffset + (i - destOffset))
    else dest i

/-! ## StreamingSamplerSound -/

/-- JUCE `MemoryMappedAudioFormatReader` after `mapEntireFile ()`: the mapped section is
`[0, lengthInSamples)` and the two channels of the file are `left` and `right`. -/
structure MemoryMappedAudioFormatReader where
  lengthInSamples : ℕ
  left : ℕ → ℚ
  right : ℕ → ℚ

/-- Modelled from the spec: JUCE `AudioFormatReader::read (buffer, startOffsetInDestBuffer,
numSamples, readerStartSample, true, true)` is not part of the repository; as the spec says
of `fillBuffer`, it copies `numSamples` frames of the file starting at `readerStartSample`
into the buffer. -/
def MemoryMappedAudioFormatReader.read (r : MemoryMappedAudioFormatReader)
    (buffer : AudioSampleBuffer) (startOffsetInDestBuffer numSamples readerStartSample : ℕ) :
    AudioSampleBuffer :=
  { buffer with
    ch0 := FloatVectorOperations.copy buffer.ch0 startOffsetInDestBuffer r.left
      readerStartSample numSamples
    ch1 := FloatVectorOperations.copy buffer.ch1 startOffsetInDestBuffer r.right
      readerStartSample numSamples }

/-- The three messages a `LoadingError` is thrown with. -/
inductive LoadingError where
  | fileDoesNotExist
  | errorAtMemoryMapping
  | outOfMemory
  deriving DecidableEq, Repr

/-- The class `StreamingSamplerSound` (the members the loader and the voice use). -/
structure StreamingSamplerSound where
  rootNote : ℤ
  memoryReader : MemoryMappedAudioFormatReader
  preloadSize : ℤ
  preloadBuffer : AudioSampleBuffer

/-- The method `StreamingSamplerSound::getPitchFactor`, which is
`pow (2.0, (noteNumberToPitch - rootNote) / 12.0)`.  The library function `pow` is the
parameter `pow`. -/
def getPitchFactor {K : Type} [DivisionRing K] (pow : K → K → K) (rootNote : ℤ)
    (noteNumberToPitch : ℤ) : K :=
  pow 2 (((noteNumberToPitch - rootNote : ℤ) : K) / 12)

/-- The method `StreamingSamplerSound::setPreloadSize`.  `allocOk n` says whether allocating
`AudioSampleBuffer (2, n)` succeeds; when it does not, the source throws
`LoadingError (fileName, "out of Memory!")`.  The result is the object after the call
and the exception thrown, if any. -/
def StreamingSamplerSound.setPreloadSize (allocOk : ℤ → Bool) (s : StreamingSamplerSound)
    (newPreloadSize : ℤ) : StreamingSamplerSound × Option LoadingError :=
  let s1 := { s with preloadSize := newPreloadSize }
  let maxSize : ℤ := s1.memoryReader.lengthInSamples
  let s2 := if newPreloadSize = -1 ∨ s1.preloadSize > maxSize then
      { s1 with preloadSize := maxSize } else s1
  if allocOk s2.preloadSize then
    let s3 := { s2 with preloadBuffer := AudioSampleBuffer.alloc s2.preloadSize.toNat }
    ({ s3 with preloadBuffer :=
        s3.memoryReader.read s3.preloadBuffer 0 s3.preloadSize.toNat 0 }, none)
  else
    (s2, some LoadingError.outOfMemory)

/-- The constructor of `StreamingSamplerSound`.  `reader` is what
`createMemoryMappedReader` returns (`none` for `nullptr`). -/
def StreamingSamplerSound.create (allocOk : ℤ → Bool)
    (reader : Option MemoryMappedAudioFormatReader) (midiNoteForNormalPitch : ℤ) :
    Except LoadingError StreamingSamplerSound :=
  match reader with
  | none => Except.error LoadingError.fileDoesNotExist
  | some memoryReader =>
    if memoryReader.lengthInSamples ≠ 0 then
      let s : StreamingSamplerSound :=
        { rootNote := midiNoteForNormalPitch, memoryReader := memoryReader,
          preloadSize := 0, preloadBuffer := AudioSampleBuffer.alloc 0 }
      match s.setPreloadSize allocOk PRELOAD_SIZE with
      | (s1, none) => Except.ok s1
      | (_, some e) => Except.error e
    else
      Except.error LoadingError.errorAtMemoryMapping

/-- The method `StreamingSamplerSound::hasEnoughSamplesForBlock`. -/
def StreamingSamplerSound.hasEnoughSamplesForBlock (s : StreamingSamplerSound)
    (maxSampleIndexInFile : ℤ) : Bool :=
  decide (maxSampleIndexInFile < (s.memoryReader.lengthInSamples : ℤ))

/-- The method `StreamingSamplerSound::fillSampleBuffer`. -/
def StreamingSamplerSound.fillSampleBuffer (s : StreamingSamplerSound)
    (sampleBuffer : AudioSampleBuffer) (samplesToCopy uptime : ℕ) : AudioSampleBuffer :=
  if ((uptime + samplesToCopy : ℕ) : ℤ) < s.preloadSize then
    { sampleBuffer with
      ch0 := FloatVectorOperations.copy sampleBuffer.ch0 0 s.preloadBuffer.ch0 uptime
        samplesToCopy
      ch1 := FloatVectorOperations.copy sampleBuffer.ch1 0 s.preloadBuffer.ch1 uptime
        samplesToCopy }
  else
    s.memoryReader.read sampleBuffer 0 samplesToCopy uptime

/-! ## SampleLoader -/

/-- The two internal buffers `b1`, `b2` of a `SampleLoader`. -/
inductive StreamBuffer where
  | b1
  | b2
  deriving DecidableEq, Repr

/-- What `readBuffer` can point at: the preload buffer of a sound, or `b1` / `b2`. -/
inductive ReadPointer where
  | preloadBuffer (s : StreamingSamplerSound)
  | own (b : StreamBuffer)

/-- Entries of `SampleLoader.trace`. -/
inductive LoaderEvent where
  /-- The method `setBufferSize` bound the roles. -/
  | setBufferSize
  /-- The method `startNote` bound the roles. -/
  | startNote
  /-- The method `requestNewData` was entered; the value of `writeBufferIsBeingFilled`
  on entry. -/
  | requestNewData (alreadyBeingFilled : Bool)
  /-- The method `fillSampleBlockBuffer` copied `numSamples` frames out of the write
  buffer; the value of `writeBufferIsBeingFilled` at that moment. -/
  | peekWriteBuffer (numSamples : ℕ) (beingFilled : Bool)
  /-- The method `swapBuffers` was called; the value it returned. -/
  | swapBuffers (result : Bool)
  deriving DecidableEq, Repr

/-- The class `SampleLoader`. -/
structure SampleLoader where
  writeBufferIsBeingFilled : Bool
  sound : Option StreamingSamplerSound
  readIndex : ℕ
  bufferSize : ℕ
  positionInSampleFile : ℕ
  readBuffer : ReadPointer
  writeBuffer : StreamBuffer
  diskUsage : ℚ
  b1 : AudioSampleBuffer
  b2 : AudioSampleBuffer
  jobsInPool : ℕ
  trace : List LoaderEvent

/-- Dereference a pointer to `b1` or `b2`. -/
def SampleLoader.streamBuffer (l : SampleLoader) : StreamBuffer → AudioSampleBuffer
  | StreamBuffer.b1 => l.b1
  | StreamBuffer.b2 => l.b2

/-- Store through a pointer to `b1` or `b2`. -/
def SampleLoader.setStreamBuffer (l : SampleLoader) (p : StreamBuffer)
    (b : AudioSampleBuffer) : SampleLoader :=
  match p with
  | StreamBuffer.b1 => { l with b1 := b }
  | StreamBuffer.b2 => { l with b2 := b }

/-- Dereference `readBuffer`. -/
def SampleLoader.readBufferContent (l : SampleLoader) : AudioSampleBuffer :=
  match l.readBuffer with
  | ReadPointer.preloadBuffer s => s.preloadBuffer
  | ReadPointer.own b => l.streamBuffer b

/-- Dereference `writeBuffer`. -/
def SampleLoader.writeBufferContent (l : SampleLoader) : AudioSampleBuffer :=
  l.streamBuffer l.writeBuffer

/-- The method `SampleLoader::reset`. -/
def SampleLoader.reset (l : SampleLoader) : SampleLoader :=
  { l with sound := none, diskUsage := 0 }

/-- The method `SampleLoader::setBufferSize`. -/
def SampleLoader.setBufferSize (l : SampleLoader) (newBufferSize : ℕ) : SampleLoader :=
  let l1 := { l with bufferSize := newBufferSize }
  let l2 := { l1 with b1 := AudioSampleBuffer.alloc l1.bufferSize,
                      b2 := AudioSampleBuffer.alloc l1.bufferSize }
  let l3 := { l2 with b1 := l2.b1.clear, b2 := l2.b2.clear }
  let l4 := { l3 with readBuffer := ReadPointer.own StreamBuffer.b1,
                      writeBuffer := StreamBuffer.b2,
                      trace := LoaderEvent.setBufferSize :: l3.trace }
  l4.reset

/-- The constructor `SampleLoader (pool)`.  The members the constructor leaves to
`setBufferSize` start from the placeholder values given here. -/
def SampleLoader.create : SampleLoader :=
  SampleLoader.setBufferSize
    { writeBufferIsBeingFilled := false, sound := none, readIndex := 0, bufferSize := 0,
      positionInSampleFile := 0, readBuffer := ReadPointer.own StreamBuffer.b1,
      writeBuffer := StreamBuffer.b2, diskUsage := 0, b1 := AudioSampleBuffer.alloc 0,
      b2 := AudioSampleBuffer.alloc 0, jobsInPool := 0, trace := [] }
    BUFFER_SIZE_FOR_STREAM_BUFFERS

/-- The method `SampleLoader::fillInactiveBuffer`. -/
def SampleLoader.fillInactiveBuffer (l : SampleLoader) : SampleLoader :=
  match l.sound with
  | some sound =>
    if sound.hasEnoughSamplesForBlock ((l.bufferSize + l.positionInSampleFile : ℕ) : ℤ) then
      l.setStreamBuffer l.writeBuffer
        (sound.fillSampleBuffer l.writeBufferContent l.bufferSize l.positionInSampleFile)
    else l
  | none => l

/-- The method `SampleLoader::runJob`, run by the pool for a submitted job.
`diskUsageThisTime` is the ratio the two clock readings give; on return
(`jobHasFinished`) the pool drops the job. -/
def SampleLoader.runJob (l : SampleLoader) (diskUsageThisTime : ℚ) : SampleLoader :=
  let l1 := l.fillInactiveBuffer
  let l2 := { l1 with writeBufferIsBeingFilled := false }
  let l3 := { l2 with diskUsage := jmax l2.diskUsage diskUsageThisTime }
  { l3 with jobsInPool := l3.jobsInPool - 1 }

/-- The method `SampleLoader::requestNewData` with `USE_BACKGROUND_THREAD 1`
(`backgroundPool->addJob (this, false)`). -/
def SampleLoader.requestNewData (l : SampleLoader) : SampleLoader :=
  { l with
    trace := LoaderEvent.requestNewData l.writeBufferIsBeingFilled :: l.trace
    writeBufferIsBeingFilled := true
    jobsInPool := l.jobsInPool + 1 }

/-- The method `SampleLoader::startNote`. -/
def SampleLoader.startNote (l : SampleLoader) (s : StreamingSamplerSound) : SampleLoader :=
  let l1 := { l with
    diskUsage := 0
    sound := some s
    readIndex := 0
    readBuffer := ReadPointer.preloadBuffer s
    writeBuffer := StreamBuffer.b1
    positionInSampleFile := l.bufferSize
    trace := LoaderEvent.startNote :: l.trace }
  if !l1.writeBufferIsBeingFilled then l1.requestNewData else l1

/-- The method `SampleLoader::swapBuffers`: the loader after the call and the value
returned. -/
def SampleLoader.swapBuffers (l : SampleLoader) : SampleLoader × Bool :=
  let l1 := match l.readBuffer with
    | ReadPointer.own StreamBuffer.b1 =>
      { l with readBuffer := ReadPointer.own StreamBuffer.b2, writeBuffer := StreamBuffer.b1 }
    | _ =>
      { l with readBuffer := ReadPointer.own StreamBuffer.b1, writeBuffer := StreamBuffer.b2 }
  let result := l1.writeBufferIsBeingFilled == false
  ({ l1 with trace := LoaderEvent.swapBuffers result :: l1.trace }, result)

/-- The method `SampleLoader::fillSampleBlockBuffer`: the loader and `sampleBlockBuffer`
after the call. -/
def SampleLoader.fillSampleBlockBuffer (l : SampleLoader) (sampleBlockBuffer : AudioSampleBuffer)
    (numSamplesToCopy numSamplesToConsume sampleIndex : ℕ) :
    SampleLoader × AudioSampleBuffer :=
  let l1 := { l with readIndex := sampleIndex % l.bufferSize }
  if l1.readIndex + numSamplesToCopy < l1.bufferSize then
    (l1, { sampleBlockBuffer with
      ch0 := FloatVectorOperations.copy sampleBlockBuffer.ch0 0 l1.readBufferContent.ch0
        l1.readIndex numSamplesToCopy
      ch1 := FloatVectorOperations.copy sampleBlockBuffer.ch1 0 l1.readBufferContent.ch1
        l1.readIndex numSamplesToCopy })
  else
    let remainingSamples := l1.bufferSize - l1.readIndex
    let d1 : AudioSampleBuffer := { sampleBlockBuffer with
      ch0 := FloatVectorOperations.copy sampleBlockBuffer.ch0 0 l1.readBufferContent.ch0
        l1.readIndex remainingSamples
      ch1 := FloatVectorOperations.copy sampleBlockBuffer.ch1 0 l1.readBufferContent.ch1
        l1.readIndex remainingSamples }
    let remainingSamplesInWriteBuffer := numSamplesToCopy - remainingSamples
    let l2 := { l1 with trace :=
      LoaderEvent.peekWriteBuffer remainingSamplesInWriteBuffer l1.writeBufferIsBeingFilled
        :: l1.trace }
    let d2 : AudioSampleBuffer := { d1 with
      ch0 := FloatVectorOperations.copy d1.ch0 remainingSamples l2.writeBufferContent.ch0 0
        remainingSamplesInWriteBuffer
      ch1 := FloatVectorOperations.copy d1.ch1 remainingSamples l2.writeBufferContent.ch1 0
        remainingSamplesInWriteBuffer }
    if l2.readIndex + numSamplesToConsume ≥ l2.bufferSize then
      match l2.swapBuffers with
      | (l3, true) =>
        ({ l3 with positionInSampleFile := l3.positionInSampleFile + l3.bufferSize }.requestNewData,
          d2)
      | (l3, false) => (l3, d2)
    else
      (l2, d2)

/-! ## StreamingSamplerVoice -/

/-- The class `StreamingSamplerVoice`.  `pitchData` is a pointer to an array of `float`
(`none` for `nullptr`); `isPlaying` is the note state of the base class
`SynthesiserVoice`, which `clearCurrentNote ()` clears. -/
structure StreamingSamplerVoice where
  pitchData : Option (ℕ → ℚ)
  voiceUptime : ℚ
  uptimeDelta : ℚ
  samplesForThisBlock : AudioSampleBuffer
  loader : SampleLoader
  isPlaying : Bool

/-- JUCE `SynthesiserVoice::clearCurrentNote ()`. -/
def StreamingSamplerVoice.clearCurrentNote (v : StreamingSamplerVoice) : StreamingSamplerVoice :=
  { v with isPlaying := false }

/-- The method `StreamingSamplerVoice::resetVoice`. -/
def StreamingSamplerVoice.resetVoice (v : StreamingSamplerVoice) : StreamingSamplerVoice :=
  { v with voiceUptime := 0, uptimeDelta := 0 }.clearCurrentNote

/-- The method `StreamingSamplerVoice::stopNote`. -/
def StreamingSamplerVoice.stopNote (v : StreamingSamplerVoice) : StreamingSamplerVoice :=
  let v1 := v.clearCurrentNote
  { v1 with loader := v1.loader.reset }

/-- The method `StreamingSamplerVoice::setPitchValues`. -/
def StreamingSamplerVoice.setPitchValues (v : StreamingSamplerVoice)
    (pitchDataForBlock : Option (ℕ → ℚ)) : StreamingSamplerVoice :=
  { v with pitchData := pitchDataForBlock }

/-- The method `StreamingSamplerVoice::setLoaderBufferSize`. -/
def StreamingSamplerVoice.setLoaderBufferSize (v : StreamingSamplerVoice)
    (newBufferSize : ℕ) : StreamingSamplerVoice :=
  { v with loader := v.loader.setBufferSize newBufferSize }

/-- The method `StreamingSamplerVoice::prepareToPlay`. -/
def StreamingSamplerVoice.prepareToPlay (v : StreamingSamplerVoice) (sampleRate : ℚ)
    (samplesPerBlock : ℕ) : StreamingSamplerVoice :=
  if sampleRate ≠ -1 then
    { v with samplesForThisBlock :=
        (AudioSampleBuffer.alloc (samplesPerBlock * MAX_SAMPLER_PITCH)).clear }
  else v

/-- The method `StreamingSamplerVoice::startNote`.  `pow` is the library function `pow`
that `getPitchFactor` calls. -/
def StreamingSamplerVoice.startNote (pow : ℚ → ℚ → ℚ) (v : StreamingSamplerVoice)
    (midiNoteNumber : ℤ) (sound : StreamingSamplerSound) : StreamingSamplerVoice :=
  let v1 := { v with loader := v.loader.startNote sound }
  let v2 := { v1 with voiceUptime := 0 }
  let pitchFactor : ℚ := getPitchFactor pow sound.rootNote midiNoteNumber
  { v2 with uptimeDelta := jmin pitchFactor (MAX_SAMPLER_PITCH : ℚ) }

/-- The first part of `renderNextBlock` (lines 268-279): the value of `numSamplesUsed`
after the loop over `i = startSample, ..., startSample + numSamples - 1`, from its value
`acc` before. -/
def StreamingSamplerVoice.numSamplesUsedLoop (v : StreamingSamplerVoice) :
    (numSamples : ℕ) → (i : ℕ) → (acc : ℚ) → ℚ
  | 0, _, acc => acc
  | n + 1, i, acc =>
    match v.pitchData with
    | some pitchData =>
      v.numSamplesUsedLoop n (i + 1)
        (acc + jmin (v.uptimeDelta * pitchData i) (MAX_SAMPLER_PITCH : ℚ))
    | none => v.numSamplesUsedLoop n (i + 1) (acc + v.uptimeDelta)

/-- The local `pos` of `renderNextBlock`. -/
def StreamingSamplerVoice.pos (v : StreamingSamplerVoice) : ℤ := truncToInt v.voiceUptime

/-- The local `numSamplesUsed` of `renderNextBlock` at line 281. -/
def StreamingSamplerVoice.numSamplesUsed (v : StreamingSamplerVoice)
    (startSample numSamples : ℕ) : ℚ :=
  v.numSamplesUsedLoop numSamples startSample (v.voiceUptime - v.pos)

/-- The local `samplesToCopy` of `renderNextBlock`. -/
def StreamingSamplerVoice.samplesToCopy (v : StreamingSamplerVoice)
    (startSample numSamples : ℕ) : ℤ :=
  truncToInt (v.numSamplesUsed startSample numSamples) + 2

/-- The factor `(pitchData == nullptr ? 1.0 : (double) pitchData[startSample])` of
line 317. -/
def pitchFactorAt (pitchData : Option (ℕ → ℚ)) (startSample : ℕ) : ℚ :=
  match pitchData with
  | none => 1
  | some p => p startSample

/-- The interpolated sample of lines 299-308 for one channel: `inL` is the scratch channel,
`voiceUptime` the cursor at this frame. -/
def interpolate (pos : ℤ) (inL : ℕ → ℚ) (voiceUptime : ℚ) : ℚ :=
  let indexFloat : ℚ := voiceUptime - pos
  let index : ℤ := truncToInt indexFloat
  let alpha : ℚ := indexFloat - index
  let invAlpha : ℚ := 1 - alpha
  inL index.toNat * invAlpha + inL (index + 1).toNat * alpha

/-- The `while (--numSamples >= 0)` loop of `renderNextBlock` with
`OVERWRITE_BUFFER_WITH_VOICE_DATA 0`.  The write pointers `outL`, `outR` start at
`startSample` and advance together with it, so the frame written is `startSample`.
The result is the final `voiceUptime` and the two output channels. -/
def renderLoop (pos : ℤ) (pitchData : Option (ℕ → ℚ)) (uptimeDelta : ℚ) (inL inR : ℕ → ℚ) :
    (numSamples : ℕ) → (voiceUptime : ℚ) → (startSample : ℕ) → (outL outR : ℕ → ℚ) →
    ℚ × (ℕ → ℚ) × (ℕ → ℚ)
  | 0, voiceUptime, _, outL, outR => (voiceUptime, outL, outR)
  | n + 1, voiceUptime, startSample, outL, outR =>
    let l := interpolate pos inL voiceUptime
    let r := interpolate pos inR voiceUptime
    let outL1 := Function.update outL startSample (outL startSample + l)
    let outR1 := Function.update outR startSample (outR startSample + r)
    let voiceUptime1 := voiceUptime + uptimeDelta * pitchFactorAt pitchData startSample
    renderLoop pos pitchData uptimeDelta inL inR n voiceUptime1 (startSample + 1) outL1 outR1

/-- The method `StreamingSamplerVoice::renderNextBlock`: the voice and `outputBuffer`
after the call. -/
def StreamingSamplerVoice.renderNextBlock (v : StreamingSamplerVoice)
    (outputBuffer : AudioSampleBuffer) (startSample numSamples : ℕ) :
    StreamingSamplerVoice × AudioSampleBuffer :=
  match v.loader.sound with
  | none => (v, outputBuffer)
  | some sound =>
    let pos := v.pos
    let numSamplesUsed := v.numSamplesUsed startSample numSamples
    let samplesToCopy := v.samplesToCopy startSample numSamples
    if !sound.hasEnoughSamplesForBlock (pos + samplesToCopy) then
      (v.resetVoice, outputBuffer)
    else
      let filled := v.loader.fillSampleBlockBuffer v.samplesForThisBlock samplesToCopy.toNat
        (truncToInt numSamplesUsed).toNat pos.toNat
      let v1 := { v with loader := filled.1, samplesForThisBlock := filled.2 }
      let out := renderLoop pos v1.pitchData v1.uptimeDelta v1.samplesForThisBlock.ch0
        v1.samplesForThisBlock.ch1 numSamples v1.voiceUptime startSample
        outputBuffer.ch0 outputBuffer.ch1
      ({ v1 with voiceUptime := out.1 },
        { outputBuffer with ch0 := out.2.1, ch1 := out.2.2 })

/-! ## Predicates and drivers used in the statements -/

/-- The preload buffer of the sound holds the first `preloadSize` frames of the file, which
is how `setPreloadSize` leaves it. -/
def StreamingSamplerSound.WellFormed (s : StreamingSamplerSound) : Prop :=
  s.preloadSize ≤ (s.memoryReader.lengthInSamples : ℤ) ∧
  ∀ i : ℕ, (i : ℤ) < s.preloadSize →
    s.preloadBuffer.ch0 i = s.memoryReader.left i ∧
    s.preloadBuffer.ch1 i = s.memoryReader.right i

/-- The pool runs the submitted refill job, if there is one, to completion. -/
def SampleLoader.finishPendingJob (l : SampleLoader) (diskUsageThisTime : ℚ) : SampleLoader :=
  if 0 < l.jobsInPool then l.runJob diskUsageThisTime else l

/-- A sequence of `fillSampleBlockBuffer` calls, each given as
`(numSamplesToCopy, numSamplesToConsume)`: `sampleIndex` advances by `numSamplesToConsume`
after each call and the requested refill completes before the next call.  The result lists,
for each call, `sampleIndex`, `numSamplesToCopy` and the buffer the call returned. -/
def SampleLoader.streamWindows (diskUsageThisTime : ℚ) :
    SampleLoader → AudioSampleBuffer → ℕ → List (ℕ × ℕ) → List (ℕ × ℕ × AudioSampleBuffer)
  | _, _, _, [] => []
  | l, dest, sampleIndex, (numSamplesToCopy, numSamplesToConsume) :: rest =>
    let r := l.fillSampleBlockBuffer dest numSamplesToCopy numSamplesToConsume sampleIndex
    (sampleIndex, numSamplesToCopy, r.2) ::
      SampleLoader.streamWindows diskUsageThisTime (r.1.finishPendingJob diskUsageThisTime) r.2
        (sampleIndex + numSamplesToConsume) rest

/-- The frames the consumer takes from a sequence of `fillSampleBlockBuffer` calls run as in
`SampleLoader.streamWindows`: the first `numSamplesToConsume` frames of each returned
window, concatenated. -/
def SampleLoader.consumedStream (diskUsageThisTime : ℚ) :
    SampleLoader → AudioSampleBuffer → ℕ → List (ℕ × ℕ) → List (ℚ × ℚ)
  | _, _, _, [] => []
  | l, dest, sampleIndex, (numSamplesToCopy, numSamplesToConsume) :: rest =>
    let r := l.fillSampleBlockBuffer dest numSamplesToCopy numSamplesToConsume sampleIndex
    (List.range numSamplesToConsume).map (fun i => (r.2.ch0 i, r.2.ch1 i)) ++
      SampleLoader.consumedStream diskUsageThisTime (r.1.finishPendingJob diskUsageThisTime)
        r.2 (sampleIndex + numSamplesToConsume) rest

/-- Every call `(numSamplesToCopy, numSamplesToConsume)` of the sequence satisfies
`P sampleIndex numSamplesToCopy numSamplesToConsume`, where `sampleIndex` starts at the given
value and advances by `numSamplesToConsume`. -/
def CallsSatisfy (P : ℕ → ℕ → ℕ → Prop) : ℕ → List (ℕ × ℕ) → Prop
  | _, [] => True
  | sampleIndex, (numSamplesToCopy, numSamplesToConsume) :: rest =>
    P sampleIndex numSamplesToCopy numSamplesToConsume ∧
      CallsSatisfy P (sampleIndex + numSamplesToConsume) rest

/-- The number of leading frames of a file of `totalFrames` frames that a loader with
buffers of `bufferSize` frames can deliver: the preload chunk `[0, bufferSize)` and every
chunk `[k * bufferSize, (k + 1) * bufferSize)` with `(k + 1) * bufferSize < totalFrames`,
the condition under which `fillInactiveBuffer` loads it. -/
def streamableFrames (bufferSize totalFrames : ℕ) : ℕ :=
  max bufferSize ((totalFrames - 1) / bufferSize * bufferSize)

/-- The buffer holds the `k`-th chunk of `bufferSize` frames of the file of `s`. -/
def HoldsChunk (s : StreamingSamplerSound) (bufferSize : ℕ) (b : AudioSampleBuffer) (k : ℕ) :
    Prop :=
  ∀ i, i < bufferSize →
    b.ch0 i = s.memoryReader.left (k * bufferSize + i) ∧
    b.ch1 i = s.memoryReader.right (k * bufferSize + i)

/-- The pair `(readBuffer, writeBuffer)` is `(b1, b2)`, `(b2, b1)` or
`(preload buffer of a sound, b1)`. -/
def SampleLoader.RolesOk (l : SampleLoader) : Prop :=
  (l.readBuffer = ReadPointer.own StreamBuffer.b1 ∧ l.writeBuffer = StreamBuffer.b2) ∨
  (l.readBuffer = ReadPointer.own StreamBuffer.b2 ∧ l.writeBuffer = StreamBuffer.b1) ∨
  (∃ s, l.readBuffer = ReadPointer.preloadBuffer s ∧ l.writeBuffer = StreamBuffer.b1)

/-- The state of a loader that streams `s` with no refill pending, when the consumer is at
`sampleIndex`: the read buffer holds the chunk of `sampleIndex` and the write buffer the next
one, each provided the refill was able to load it. -/
structure StreamInv (s : StreamingSamplerSound) (bufferSize : ℕ) (l : SampleLoader)
    (sampleIndex : ℕ) : Prop where
  sound : l.sound = some s
  size : l.bufferSize = bufferSize
  idle : l.writeBufferIsBeingFilled = false
  noJob : l.jobsInPool = 0
  position : l.positionInSampleFile = (sampleIndex / bufferSize + 1) * bufferSize
  roles : l.RolesOk
  read : (sampleIndex / bufferSize = 0 ∨
      (sampleIndex / bufferSize + 1) * bufferSize < s.memoryReader.lengthInSamples) →
    HoldsChunk s bufferSize l.readBufferContent (sampleIndex / bufferSize)
  write : (sampleIndex / bufferSize + 2) * bufferSize < s.memoryReader.lengthInSamples →
    HoldsChunk s bufferSize l.writeBufferContent (sampleIndex / bufferSize + 1)

/-- The method `SampleLoader::getDiskUsage`: the loader after the call and the value
returned. -/
def SampleLoader.getDiskUsage (l : SampleLoader) : SampleLoader × ℚ :=
  let returnValue := l.diskUsage
  ({ l with diskUsage := 0 }, returnValue)

/-- The loader states reachable from the constructor through the public methods and through
the completion of a submitted refill job. -/
inductive SampleLoader.Reachable : SampleLoader → Prop where
  | create : SampleLoader.Reachable SampleLoader.create
  | setBufferSize (l : SampleLoader) (newBufferSize : ℕ) :
      SampleLoader.Reachable l → SampleLoader.Reachable (l.setBufferSize newBufferSize)
  | startNote (l : SampleLoader) (s : StreamingSamplerSound) :
      SampleLoader.Reachable l → SampleLoader.Reachable (l.startNote s)
  | fillSampleBlockBuffer (l : SampleLoader) (sampleBlockBuffer : AudioSampleBuffer)
      (numSamplesToCopy numSamplesToConsume sampleIndex : ℕ) :
      SampleLoader.Reachable l →
      SampleLoader.Reachable
        (l.fillSampleBlockBuffer sampleBlockBuffer numSamplesToCopy numSamplesToConsume
          sampleIndex).1
  | reset (l : SampleLoader) : SampleLoader.Reachable l → SampleLoader.Reachable l.reset
  | getDiskUsage (l : SampleLoader) :
      SampleLoader.Reachable l → SampleLoader.Reachable l.getDiskUsage.1
  | runJob (l : SampleLoader) (diskUsageThisTime : ℚ) :
      SampleLoader.Reachable l → 0 < l.jobsInPool →
      SampleLoader.Reachable (l.runJob diskUsageThisTime)

/-- The trace entries of the calls that bind the read and write roles. -/
def LoaderEvent.bindsRoles : LoaderEvent → Bool
  | LoaderEvent.setBufferSize => true
  | LoaderEvent.startNote => true
  | LoaderEvent.swapBuffers _ => true
  | _ => false

/-- The calls that bound the roles, most recent first. -/
def SampleLoader.roleHistory (l : SampleLoader) : List LoaderEvent :=
  l.trace.filter LoaderEvent.bindsRoles

/-- The value of `voiceUptime` when the `while` loop of `renderNextBlock` reaches its
`i`-th iteration (the one that writes output frame `startSample + i`), from its value
`voiceUptime` on entry. -/
def cursorAt (pitchData : Option (ℕ → ℚ)) (uptimeDelta voiceUptime : ℚ) (startSample : ℕ) :
    ℕ → ℚ
  | 0 => voiceUptime
  | i + 1 => cursorAt pitchData uptimeDelta voiceUptime startSample i +
      uptimeDelta * pitchFactorAt pitchData (startSample + i)

/-- The host renders consecutive blocks of the given sizes into `outputBuffer`, the first at
`startSample`; every refill a call requests completes before the next call. -/
def StreamingSamplerVoice.playBlocks (diskUsageThisTime : ℚ) :
    StreamingSamplerVoice → AudioSampleBuffer → ℕ → List ℕ →
    StreamingSamplerVoice × AudioSampleBuffer
  | v, outputBuffer, _, [] => (v, outputBuffer)
  | v, outputBuffer, startSample, numSamples :: rest =>
    let r := v.renderNextBlock outputBuffer startSample numSamples
    StreamingSamplerVoice.playBlocks diskUsageThisTime
      { r.1 with loader := r.1.loader.finishPendingJob diskUsageThisTime } r.2
      (startSample + numSamples) rest

/-- The voice states reachable after a `startNote` (called on any voice state, so also on
a reachable one) through the methods of the voice and the completion of a refill job of its
loader.  `pow` is the library function `pow`. -/
inductive StreamingSamplerVoice.ReachableAfterStart (pow : ℚ → ℚ → ℚ) :
    StreamingSamplerVoice → Prop where
  | startNote (v : StreamingSamplerVoice) (midiNoteNumber : ℤ) (sound : StreamingSamplerSound) :
      StreamingSamplerVoice.ReachableAfterStart pow (v.startNote pow midiNoteNumber sound)
  | renderNextBlock (v : StreamingSamplerVoice) (outputBuffer : AudioSampleBuffer)
      (startSample numSamples : ℕ) :
      StreamingSamplerVoice.ReachableAfterStart pow v →
      StreamingSamplerVoice.ReachableAfterStart pow
        (v.renderNextBlock outputBuffer startSample numSamples).1
  | resetVoice (v : StreamingSamplerVoice) :
      StreamingSamplerVoice.ReachableAfterStart pow v →
      StreamingSamplerVoice.ReachableAfterStart pow v.resetVoice
  | stopNote (v : StreamingSamplerVoice) :
      StreamingSamplerVoice.ReachableAfterStart pow v →
      StreamingSamplerVoice.ReachableAfterStart pow v.stopNote
  | setPitchValues (v : StreamingSamplerVoice) (pitchDataForBlock : Option (ℕ → ℚ)) :
      StreamingSamplerVoice.ReachableAfterStart pow v →
      StreamingSamplerVoice.ReachableAfterStart pow (v.setPitchValues pitchDataForBlock)
  | setLoaderBufferSize (v : StreamingSamplerVoice) (newBufferSize : ℕ) :
      StreamingSamplerVoice.ReachableAfterStart pow v →
      StreamingSamplerVoice.ReachableAfterStart pow (v.setLoaderBufferSize newBufferSize)
  | prepareToPlay (v : StreamingSamplerVoice) (sampleRate : ℚ) (samplesPerBlock : ℕ) :
      StreamingSamplerVoice.ReachableAfterStart pow v →
      StreamingSamplerVoice.ReachableAfterStart pow (v.prepareToPlay sampleRate samplesPerBlock)
  | refill (v : StreamingSamplerVoice) (diskUsageThisTime : ℚ) :
      StreamingSamplerVoice.ReachableAfterStart pow v →
      StreamingSamplerVoice.ReachableAfterStart pow
        { v with loader := v.loader.finishPendingJob diskUsageThisTime }

/-! ## Concrete inputs -/

/-- A file of `totalFrames` frames whose left channel is the ramp `1, 2, 3, ...` and whose
right channel is the ramp `2, 4, 6, ...`. -/
def rampReader (totalFrames : ℕ) : MemoryMappedAudioFormatReader :=
  { lengthInSamples := totalFrames
    left := fun i => ((i + 1 : ℕ) : ℚ)
    right := fun i => ((2 * (i + 1) : ℕ) : ℚ) }

/-- The sound the constructor builds from `rampReader totalFrames` with root note 60 when
every allocation succeeds. -/
def rampSound (totalFrames : ℕ) : StreamingSamplerSound :=
  (StreamingSamplerSound.setPreloadSize (fun _ => true)
    { rootNote := 60, memoryReader := rampReader totalFrames, preloadSize := 0,
      preloadBuffer := AudioSampleBuffer.alloc 0 } PRELOAD_SIZE).1

/-- A loader with buffers of 64 frames on which `startNote` has just requested the first
refill of the 1000-frame ramp; the refill job has not run yet. -/
def starvedLoader : SampleLoader :=
  (SampleLoader.create.setBufferSize 64).startNote (rampSound 1000)

/-- A voice that plays the sound `s` at its root pitch with no pitch curve, `sampleIndex`
frames into the note, its loader streaming `s` with no refill pending. -/
structure RootPitchInv (s : StreamingSamplerSound) (bufferSize : ℕ) (v : StreamingSamplerVoice)
    (sampleIndex : ℕ) : Prop where
  noCurve : v.pitchData = none
  delta : v.uptimeDelta = 1
  uptime : v.voiceUptime = (sampleIndex : ℚ)
  loader : StreamInv s bufferSize v.loader sampleIndex

/-- An exact stand-in for the library function `pow` on integer exponents: `b ^ ⌊e⌋`. -/
def intPow (b e : ℚ) : ℚ := b ^ ⌊e⌋

/-- A voice as the host sets it up (`prepareToPlay (44100, 128)`, `setLoaderBufferSize (64)`;
the members the constructor leaves uninitialised are 0 here), started by the synthesiser on
the 100-frame ramp at its root note, the first refill completed. -/
def rampVoice : StreamingSamplerVoice :=
  let v0 : StreamingSamplerVoice :=
    { pitchData := none, voiceUptime := 0, uptimeDelta := 0,
      samplesForThisBlock := AudioSampleBuffer.alloc 0, loader := SampleLoader.create,
      isPlaying := true }
  let v1 := (v0.prepareToPlay 44100 128).setLoaderBufferSize 64
  let v2 := v1.startNote intPow (rampSound 100).rootNote (rampSound 100)
  { v2 with loader := v2.loader.finishPendingJob 0 }

/-- A voice as the constructor and `prepareToPlay (44100, 512)` leave it (the members the
constructor leaves uninitialised are 0 here), its loader with the default buffers of
`BUFFER_SIZE_FOR_STREAM_BUFFERS` frames; the synthesiser has marked it as playing. -/
def freshVoice : StreamingSamplerVoice :=
  StreamingSamplerVoice.prepareToPlay
    { pitchData := none, voiceUptime := 0, uptimeDelta := 0,
      samplesForThisBlock := AudioSampleBuffer.alloc 0, loader := SampleLoader.create,
      isPlaying := true } 44100 512

/-- The voice `rampVoice` after `setPitchValues` with a pitch curve that is 10 at every
frame. -/
def steepCurveVoice : StreamingSamplerVoice :=
  rampVoice.setPitchValues (some (fun _ => 10))

/-- The voice `rampVoice` after `setPitchValues` with a pointer to an array of four floats,
each 1; the memory behind the array holds `behind`. -/
def shortCurveVoice (behind : ℚ) : StreamingSamplerVoice :=
  rampVoice.setPitchValues (some (fun i => if i < 4 then 1 else behind))

/-- The voice `freshVoice` (scratch buffer for blocks of 512 frames) started by the
synthesiser on the 1,000,000-frame ramp three octaves above its root note, the first refill
completed. -/
def octaveVoice : StreamingSamplerVoice :=
  { freshVoice.startNote intPow ((rampSound 1000000).rootNote + 36) (rampSound 1000000) with
    loader := (freshVoice.startNote intPow ((rampSound 1000000).rootNote + 36)
      (rampSound 1000000)).loader.finishPendingJob 0 }

/-! ## Lemmas about buffers and the loader -/

theorem copy_apply (dest : ℕ → ℚ) (o : ℕ) (src : ℕ → ℚ) (so n i : ℕ) :
    FloatVectorOperations.copy dest o src so n i =
      if o ≤ i ∧ i < o + n then src (so + (i - o)) else dest i := rfl

@[simp] theorem readBufferContent_readIndex (l : SampleLoader) (x : ℕ) :
    ({ l with readIndex := x } : SampleLoader).readBufferContent = l.readBufferContent := rfl

@[simp] theorem writeBufferContent_readIndex (l : SampleLoader) (x : ℕ) :
    ({ l with readIndex := x } : SampleLoader).writeBufferContent = l.writeBufferContent := rfl

@[simp] theorem readBufferContent_trace (l : SampleLoader) (x : List LoaderEvent) :
    ({ l with trace := x } : SampleLoader).readBufferContent = l.readBufferContent := rfl

@[simp] theorem writeBufferContent_trace (l : SampleLoader) (x : List LoaderEvent) :
    ({ l with trace := x } : SampleLoader).writeBufferContent = l.writeBufferContent := rfl

/-- The buffer `fillSampleBlockBuffer` returns, which does not depend on the swap. -/
theorem fill_dest (l : SampleLoader) (dest : AudioSampleBuffer) (copy consume idx : ℕ) :
    (l.fillSampleBlockBuffer dest copy consume idx).2 =
      if idx % l.bufferSize + copy < l.bufferSize then
        { dest with
          ch0 := FloatVectorOperations.copy dest.ch0 0 l.readBufferContent.ch0
            (idx % l.bufferSize) copy
          ch1 := FloatVectorOperations.copy dest.ch1 0 l.readBufferContent.ch1
            (idx % l.bufferSize) copy }
      else
        { dest with
          ch0 := FloatVectorOperations.copy
            (FloatVectorOperations.copy dest.ch0 0 l.readBufferContent.ch0
              (idx % l.bufferSize) (l.bufferSize - idx % l.bufferSize))
            (l.bufferSize - idx % l.bufferSize) l.writeBufferContent.ch0 0
            (copy - (l.bufferSize - idx % l.bufferSize))
          ch1 := FloatVectorOperations.copy
            (FloatVectorOperations.copy dest.ch1 0 l.readBufferContent.ch1
              (idx % l.bufferSize) (l.bufferSize - idx % l.bufferSize))
            (l.bufferSize - idx % l.bufferSize) l.writeBufferContent.ch1 0
            (copy - (l.bufferSize - idx % l.bufferSize)) } := by
  unfold SampleLoader.fillSampleBlockBuffer
  dsimp only
  split_ifs with h1 h2
  · rfl
  · split <;> rfl
  · rfl

theorem fill_dest_ch0 (l : SampleLoader) (dest : AudioSampleBuffer) (copy consume idx i : ℕ) :
    (l.fillSampleBlockBuffer dest copy consume idx).2.ch0 i =
      if i < copy then
        (if idx % l.bufferSize + i < l.bufferSize
          then l.readBufferContent.ch0 (idx % l.bufferSize + i)
          else l.writeBufferContent.ch0 (i - (l.bufferSize - idx % l.bufferSize)))
      else dest.ch0 i := by
  rw [fill_dest]
  split_ifs <;> simp only [copy_apply] <;> split_ifs <;>
    first | rfl | omega | (congr 1; omega)

theorem fill_dest_ch1 (l : SampleLoader) (dest : AudioSampleBuffer) (copy consume idx i : ℕ) :
    (l.fillSampleBlockBuffer dest copy consume idx).2.ch1 i =
      if i < copy then
        (if idx % l.bufferSize + i < l.bufferSize
          then l.readBufferContent.ch1 (idx % l.bufferSize + i)
          else l.writeBufferContent.ch1 (i - (l.bufferSize - idx % l.bufferSize)))
      else dest.ch1 i := by
  rw [fill_dest]
  split_ifs <;> simp only [copy_apply] <;> split_ifs <;>
    first | rfl | omega | (congr 1; omega)

theorem fill_dest_numSamples (l : SampleLoader) (dest : AudioSampleBuffer)
    (copy consume idx : ℕ) :
    (l.fillSampleBlockBuffer dest copy consume idx).2.numSamples = dest.numSamples := by
  rw [fill_dest]
  split_ifs <;> rfl

/-- A window written as a list: the tail of one channel followed by the head of another. -/
theorem list_window (f g h : ℕ → ℚ) (r B copy : ℕ) (hcopy : copy ≤ B)
    (hf : ∀ i, i < copy → f i = if r + i < B then g (r + i) else h (i - (B - r))) :
    (List.range copy).map f =
      ((List.range' r (B - r)).map g ++ (List.range B).map h).take copy := by
  apply List.ext_getElem
  · simp; omega
  · intro i h1 h2
    have hi : i < copy := by simpa using h1
    simp only [List.getElem_map, List.getElem_range, List.getElem_take]
    rw [hf i hi, List.getElem_append]
    split_ifs with h3 h4 h4
    · simp
    · simp at h4; omega
    · simp at h4; omega
    · simp

theorem chunk_div (B k r : ℕ) (hr : r < B) : (k * B + r) / B = k := by
  have hB : 0 < B := by omega
  rw [Nat.add_comm, Nat.add_mul_div_right _ _ hB, Nat.div_eq_of_lt hr, Nat.zero_add]

/-- A frame below `streamableFrames` lies in the preload chunk or in a loaded chunk. -/
theorem chunk_loaded (B T k j : ℕ) (hj : k * B + j < streamableFrames B T) (hk : 1 ≤ k) :
    (k + 1) * B < T := by
  unfold streamableFrames at hj
  have h1 : k * B + j < (T - 1) / B * B := by
    rcases Nat.lt_or_ge (k * B + j) ((T - 1) / B * B) with h | h
    · exact h
    · exfalso
      have : max B ((T - 1) / B * B) = B := by
        rcases le_total B ((T - 1) / B * B) with h' | h'
        · have hB : B ≤ k * B := Nat.le_mul_of_pos_left B hk
          omega
        · exact max_eq_left h'
      rw [this] at hj
      have hB : B ≤ k * B := Nat.le_mul_of_pos_left B hk
      omega
  have h2 : k * B < (T - 1) / B * B := by omega
  have h3 : k < (T - 1) / B := Nat.lt_of_mul_lt_mul_right h2
  have h4 : (k + 1) * B ≤ (T - 1) / B * B := Nat.mul_le_mul_right B h3
  have h5 : (T - 1) / B * B ≤ T - 1 := Nat.div_mul_le_self _ _
  have h6 : 0 < T := by
    rcases Nat.eq_zero_or_pos T with h | h
    · subst h; simp at h3
    · exact h
  omega

theorem fill_stream_content (s : StreamingSamplerSound) (B : ℕ) (l : SampleLoader)
    (dest : AudioSampleBuffer) (copy consume idx : ℕ) (hB : 0 < B)
    (inv : StreamInv s B l idx)
    (hcopy : copy ≤ B)
    (hwin : idx + copy ≤ streamableFrames B s.memoryReader.lengthInSamples)
    (i : ℕ) (hi : i < copy) :
    (l.fillSampleBlockBuffer dest copy consume idx).2.ch0 i = s.memoryReader.left (idx + i) ∧
    (l.fillSampleBlockBuffer dest copy consume idx).2.ch1 i = s.memoryReader.right (idx + i) := by
  have hr : idx % B < B := Nat.mod_lt _ hB
  have hidx : idx / B * B + idx % B = idx := Nat.div_add_mod' idx B
  rw [fill_dest_ch0, fill_dest_ch1, if_pos hi, if_pos hi, inv.size]
  by_cases h1 : idx % B + i < B
  · rw [if_pos h1, if_pos h1]
    have hread : HoldsChunk s B l.readBufferContent (idx / B) := by
      apply inv.read
      rcases Nat.eq_zero_or_pos (idx / B) with h0 | h0
      · exact Or.inl h0
      · right
        apply chunk_loaded B _ (idx / B) (idx % B + i) _ h0
        omega
    have := hread (idx % B + i) h1
    have e : idx / B * B + (idx % B + i) = idx + i := by omega
    rw [e] at this
    exact this
  · rw [if_neg h1, if_neg h1]
    have hwrite : HoldsChunk s B l.writeBufferContent (idx / B + 1) := by
      apply inv.write
      have := chunk_loaded B s.memoryReader.lengthInSamples (idx / B + 1) (idx % B + i - B)
        (by rw [Nat.add_mul]; omega) (Nat.le_add_left 1 _)
      exact this
    have := hwrite (i - (B - idx % B)) (by omega)
    have e : (idx / B + 1) * B + (i - (B - idx % B)) = idx + i := by
      rw [Nat.add_mul]; omega
    rw [e] at this
    exact this


theorem fillSampleBuffer_chunk (s : StreamingSamplerSound) (hs : s.WellFormed)
    (b : AudioSampleBuffer) (B k : ℕ) :
    HoldsChunk s B (s.fillSampleBuffer b B (k * B)) k := by
  intro i hi
  unfold StreamingSamplerSound.fillSampleBuffer
  split_ifs with h
  · have := hs.2 (k * B + i) (by omega)
    simp only [copy_apply]
    rw [if_pos (by omega), if_pos (by omega)]
    simpa using this
  · simp only [MemoryMappedAudioFormatReader.read, copy_apply]
    rw [if_pos (by omega), if_pos (by omega)]
    simp

theorem finishPendingJob_idle (l : SampleLoader) (u : ℚ) (h : l.jobsInPool = 0) :
    l.finishPendingJob u = l := by
  simp [SampleLoader.finishPendingJob, h]

theorem fill_fst_fits (l : SampleLoader) (dest : AudioSampleBuffer) (copy consume idx : ℕ)
    (h1 : idx % l.bufferSize + copy < l.bufferSize) :
    (l.fillSampleBlockBuffer dest copy consume idx).1 =
      { l with readIndex := idx % l.bufferSize } := by
  unfold SampleLoader.fillSampleBlockBuffer
  dsimp only
  rw [if_pos h1]

theorem fill_fst_stay (l : SampleLoader) (dest : AudioSampleBuffer) (copy consume idx : ℕ)
    (h1 : ¬ idx % l.bufferSize + copy < l.bufferSize)
    (h2 : ¬ idx % l.bufferSize + consume ≥ l.bufferSize) :
    (l.fillSampleBlockBuffer dest copy consume idx).1 =
      { l with
        readIndex := idx % l.bufferSize
        trace := LoaderEvent.peekWriteBuffer (copy - (l.bufferSize - idx % l.bufferSize))
          l.writeBufferIsBeingFilled :: l.trace } := by
  unfold SampleLoader.fillSampleBlockBuffer
  dsimp only
  rw [if_neg h1, if_neg h2]

theorem fill_fst_swap (l : SampleLoader) (dest : AudioSampleBuffer) (copy consume idx : ℕ)
    (h1 : ¬ idx % l.bufferSize + copy < l.bufferSize)
    (h2 : idx % l.bufferSize + consume ≥ l.bufferSize) :
    (l.fillSampleBlockBuffer dest copy consume idx).1 =
      let l2 : SampleLoader := { l with
        readIndex := idx % l.bufferSize
        trace := LoaderEvent.peekWriteBuffer (copy - (l.bufferSize - idx % l.bufferSize))
          l.writeBufferIsBeingFilled :: l.trace }
      if l2.swapBuffers.2 = true then
        { l2.swapBuffers.1 with
          positionInSampleFile :=
            l2.swapBuffers.1.positionInSampleFile + l2.swapBuffers.1.bufferSize }.requestNewData
      else l2.swapBuffers.1 := by
  unfold SampleLoader.fillSampleBlockBuffer
  dsimp only
  rw [if_neg h1, if_pos h2]
  split
  · rename_i l3 h; rw [h]; simp
  · rename_i l3 h; rw [h]; simp


/-- A swap with no refill pending, followed by the refill it requests. -/
theorem swap_refill (l : SampleLoader) (s : StreamingSamplerSound) (u : ℚ)
    (hsound : l.sound = some s) (hidle : l.writeBufferIsBeingFilled = false)
    (hjob : l.jobsInPool = 0) (hroles : l.RolesOk)
    (next : SampleLoader)
    (hnext : next = (if l.swapBuffers.2 = true then
        { l.swapBuffers.1 with
          positionInSampleFile :=
            l.swapBuffers.1.positionInSampleFile + l.swapBuffers.1.bufferSize }.requestNewData
      else l.swapBuffers.1).finishPendingJob u) :
    next.sound = some s ∧ next.bufferSize = l.bufferSize ∧
    next.writeBufferIsBeingFilled = false ∧ next.jobsInPool = 0 ∧
    next.positionInSampleFile = l.positionInSampleFile + l.bufferSize ∧
    next.RolesOk ∧ next.readBufferContent = l.writeBufferContent ∧
    (s.hasEnoughSamplesForBlock
        ((l.bufferSize + (l.positionInSampleFile + l.bufferSize) : ℕ) : ℤ) = true →
      ∃ b, next.writeBufferContent =
        s.fillSampleBuffer b l.bufferSize (l.positionInSampleFile + l.bufferSize)) ∧
    next.trace.count (LoaderEvent.swapBuffers false) =
      l.trace.count (LoaderEvent.swapBuffers false) := by
  subst hnext
  rcases l with ⟨flag, sound, ri, bs, pos, rb, wb, du, b1, b2, jobs, tr⟩
  simp only at hsound hidle hjob
  subst hsound hidle hjob
  rcases hroles with ⟨hrd, hwr⟩ | ⟨hrd, hwr⟩ | ⟨s', hrd, hwr⟩ <;>
  · simp only at hrd hwr
    subst hrd hwr
    simp only [SampleLoader.swapBuffers, SampleLoader.requestNewData,
      SampleLoader.finishPendingJob, SampleLoader.runJob, SampleLoader.fillInactiveBuffer,
      SampleLoader.setStreamBuffer, SampleLoader.writeBufferContent,
      SampleLoader.readBufferContent, SampleLoader.streamBuffer, SampleLoader.RolesOk]
    by_cases hc : s.hasEnoughSamplesForBlock ((bs + (pos + bs) : ℕ) : ℤ) = true
    · have hc2 := hc
      simp only [Nat.cast_add] at hc2
      simp [hc, hc2]
      exact ⟨_, rfl⟩
    · have hc2 := hc
      simp only [Nat.cast_add] at hc2
      simp [hc, hc2]

theorem fill_stream_inv (s : StreamingSamplerSound) (B : ℕ) (l : SampleLoader)
    (dest : AudioSampleBuffer) (copy consume idx : ℕ) (u : ℚ) (hB : 0 < B)
    (hs : s.WellFormed) (inv : StreamInv s B l idx) (hcc : consume ≤ copy) (hcopy : copy ≤ B) :
    StreamInv s B ((l.fillSampleBlockBuffer dest copy consume idx).1.finishPendingJob u)
      (idx + consume) ∧
    ((l.fillSampleBlockBuffer dest copy consume idx).1.finishPendingJob u).trace.count
        (LoaderEvent.swapBuffers false) = l.trace.count (LoaderEvent.swapBuffers false) := by
  obtain ⟨hsound, hsize, hidle, hjob, hpos, hroles, hread, hwrite⟩ := inv
  have hr : idx % B < B := Nat.mod_lt _ hB
  have hidx : idx / B * B + idx % B = idx := Nat.div_add_mod' idx B
  by_cases h1 : idx % l.bufferSize + copy < l.bufferSize
  · rw [fill_fst_fits _ _ _ _ _ h1, finishPendingJob_idle]
    · rw [hsize] at h1
      have hk : (idx + consume) / B = idx / B := by
        have : idx + consume = idx / B * B + (idx % B + consume) := by omega
        rw [this, chunk_div _ _ _ (by omega)]
      refine ⟨⟨hsound, hsize, hidle, hjob, ?_, hroles, ?_, ?_⟩, rfl⟩
      · rw [hk]; exact hpos
      · rw [hk]; exact hread
      · rw [hk]; exact hwrite
    · exact hjob
  · by_cases h2 : idx % l.bufferSize + consume ≥ l.bufferSize
    · rw [fill_fst_swap _ _ _ _ _ h1 h2]
      rw [hsize] at h1 h2
      have hk : (idx + consume) / B = idx / B + 1 := by
        have : idx + consume = (idx / B + 1) * B + (idx % B + consume - B) := by
          rw [Nat.add_mul]; omega
        rw [this, chunk_div _ _ _ (by omega)]
      generalize hnext : SampleLoader.finishPendingJob _ u = next
      obtain ⟨a1, a2, a3, a4, a5, a6, a7, a8, a9⟩ := swap_refill
        { l with
          readIndex := idx % l.bufferSize
          trace := LoaderEvent.peekWriteBuffer (copy - (l.bufferSize - idx % l.bufferSize))
            l.writeBufferIsBeingFilled :: l.trace } s u hsound hidle hjob hroles next hnext.symm
      replace a7 : next.readBufferContent = l.writeBufferContent := a7
      replace a2 : next.bufferSize = l.bufferSize := a2
      replace a5 : next.positionInSampleFile = l.positionInSampleFile + l.bufferSize := a5
      replace a8 : s.hasEnoughSamplesForBlock
          ((l.bufferSize + (l.positionInSampleFile + l.bufferSize) : ℕ) : ℤ) = true →
          ∃ b, next.writeBufferContent =
            s.fillSampleBuffer b l.bufferSize (l.positionInSampleFile + l.bufferSize) := a8
      replace a9 : next.trace.count (LoaderEvent.swapBuffers false) =
          (LoaderEvent.peekWriteBuffer (copy - (l.bufferSize - idx % l.bufferSize))
            l.writeBufferIsBeingFilled :: l.trace).count (LoaderEvent.swapBuffers false) := a9
      rw [hsize, hpos] at a5 a8
      rw [hsize] at a2
      have e1 : (idx / B + 1) * B + B = (idx / B + 1 + 1) * B := by
        rw [Nat.add_mul (idx / B + 1) 1 B]; omega
      refine ⟨⟨a1, a2, a3, a4, ?_, a6, ?_, ?_⟩, ?_⟩
      · rw [hk, a5, e1]
      · rw [hk, a7]
        intro h
        apply hwrite
        rcases h with h | h
        · exact absurd h (Nat.succ_ne_zero _)
        · exact h
      · rw [hk]
        intro h
        have hc : s.hasEnoughSamplesForBlock ((B + ((idx / B + 1) * B + B) : ℕ) : ℤ) = true := by
          unfold StreamingSamplerSound.hasEnoughSamplesForBlock
          rw [decide_eq_true_eq]
          have e2 : (idx / B + 1 + 2) * B = B + ((idx / B + 1) * B + B) := by
            rw [Nat.add_mul (idx / B + 1) 2 B]; omega
          rw [e2] at h
          exact_mod_cast h
        obtain ⟨b, hb⟩ := a8 hc
        rw [hb, e1]
        exact fillSampleBuffer_chunk s hs b B _
      · rw [a9]; simp
    · rw [fill_fst_stay _ _ _ _ _ h1 h2, finishPendingJob_idle]
      · rw [hsize] at h1 h2
        have hk : (idx + consume) / B = idx / B := by
          have : idx + consume = idx / B * B + (idx % B + consume) := by omega
          rw [this, chunk_div _ _ _ (by omega)]
        refine ⟨⟨hsound, hsize, hidle, hjob, ?_, hroles, ?_, ?_⟩, ?_⟩
        · rw [hk]; exact hpos
        · rw [hk]; exact hread
        · rw [hk]; exact hwrite
        · simp
      · exact hjob


theorem startNote_stream_inv (s : StreamingSamplerSound) (B : ℕ) (l : SampleLoader) (u : ℚ)
    (hB : 0 < B) (hs : s.WellFormed) (hP : (B : ℤ) ≤ s.preloadSize)
    (hsize : l.bufferSize = B) (hidle : l.writeBufferIsBeingFilled = false)
    (hjob : l.jobsInPool = 0) :
    StreamInv s B ((l.startNote s).finishPendingJob u) 0 ∧
    ((l.startNote s).finishPendingJob u).trace.count (LoaderEvent.swapBuffers false) =
      l.trace.count (LoaderEvent.swapBuffers false) := by
  rcases l with ⟨flag, sound, ri, bs, pos, rb, wb, du, b1, b2, jobs, tr⟩
  simp only at hsize hidle hjob
  subst hsize hidle hjob
  have h0 : 0 / bs = 0 := Nat.zero_div bs
  have hchunk := fillSampleBuffer_chunk s hs b1 bs 1
  rw [Nat.one_mul] at hchunk
  by_cases hc : s.hasEnoughSamplesForBlock ((bs + bs : ℕ) : ℤ) = true
  · have hc2 := hc
    simp only [Nat.cast_add] at hc2
    refine ⟨⟨?_, ?_, ?_, ?_, ?_, ?_, ?_, ?_⟩, ?_⟩ <;>
      simp [SampleLoader.startNote, SampleLoader.requestNewData,
        SampleLoader.finishPendingJob, SampleLoader.runJob, SampleLoader.fillInactiveBuffer,
        SampleLoader.setStreamBuffer, SampleLoader.writeBufferContent,
        SampleLoader.readBufferContent, SampleLoader.streamBuffer, SampleLoader.RolesOk,
        hc, hc2, h0]
    · intro i hi
      rw [Nat.zero_mul, Nat.zero_add]
      exact hs.2 i (by omega)
    · intro _
      exact hchunk
  · have hc2 := hc
    simp only [Nat.cast_add] at hc2
    refine ⟨⟨?_, ?_, ?_, ?_, ?_, ?_, ?_, ?_⟩, ?_⟩ <;>
      simp [SampleLoader.startNote, SampleLoader.requestNewData,
        SampleLoader.finishPendingJob, SampleLoader.runJob, SampleLoader.fillInactiveBuffer,
        SampleLoader.setStreamBuffer, SampleLoader.writeBufferContent,
        SampleLoader.readBufferContent, SampleLoader.streamBuffer, SampleLoader.RolesOk,
        hc, hc2, h0]
    · intro i hi
      rw [Nat.zero_mul, Nat.zero_add]
      exact hs.2 i (by omega)
    · intro h
      exfalso
      apply hc
      unfold StreamingSamplerSound.hasEnoughSamplesForBlock
      rw [decide_eq_true_eq]
      have : bs + bs < s.memoryReader.lengthInSamples := by omega
      exact_mod_cast this

theorem streamWindows_correct (s : StreamingSamplerSound) (B : ℕ) (u : ℚ) (hB : 0 < B)
    (hs : s.WellFormed) (calls : List (ℕ × ℕ)) :
    ∀ (l : SampleLoader) (dest : AudioSampleBuffer) (idx : ℕ), StreamInv s B l idx →
      CallsSatisfy (fun sampleIndex numSamplesToCopy numSamplesToConsume =>
        numSamplesToConsume ≤ numSamplesToCopy ∧ numSamplesToCopy ≤ B ∧
        sampleIndex + numSamplesToCopy ≤ streamableFrames B s.memoryReader.lengthInSamples)
        idx calls →
      ∀ r ∈ SampleLoader.streamWindows u l dest idx calls, ∀ i, i < r.2.1 →
        r.2.2.ch0 i = s.memoryReader.left (r.1 + i) ∧
        r.2.2.ch1 i = s.memoryReader.right (r.1 + i) := by
  induction calls with
  | nil => intro l dest idx _ _ r hr; simp [SampleLoader.streamWindows] at hr
  | cons c rest ih =>
    intro l dest idx inv hcalls r hr i hi
    obtain ⟨copy, consume⟩ := c
    obtain ⟨⟨h1, h2, h3⟩, hrest⟩ := hcalls
    simp only [SampleLoader.streamWindows, List.mem_cons] at hr
    rcases hr with hr | hr
    · subst hr
      exact fill_stream_content s B l dest copy consume idx hB inv h2 h3 i hi
    · exact ih _ _ _ (fill_stream_inv s B l dest copy consume idx u hB hs inv h1 h2).1 hrest
        r hr i hi


theorem consumedStream_correct (s : StreamingSamplerSound) (B : ℕ) (u : ℚ) (hB : 0 < B)
    (hs : s.WellFormed) (calls : List (ℕ × ℕ)) :
    ∀ (l : SampleLoader) (dest : AudioSampleBuffer) (idx : ℕ), StreamInv s B l idx →
      CallsSatisfy (fun sampleIndex numSamplesToCopy numSamplesToConsume =>
        numSamplesToConsume ≤ numSamplesToCopy ∧ numSamplesToCopy ≤ B ∧
        sampleIndex + numSamplesToCopy ≤ streamableFrames B s.memoryReader.lengthInSamples)
        idx calls →
      SampleLoader.consumedStream u l dest idx calls =
        (List.range' idx (calls.map Prod.snd).sum).map
          (fun i => (s.memoryReader.left i, s.memoryReader.right i)) := by
  induction calls with
  | nil => intro l dest idx _ _; simp [SampleLoader.consumedStream]
  | cons c rest ih =>
    intro l dest idx inv hcalls
    obtain ⟨copy, consume⟩ := c
    obtain ⟨⟨h1, h2, h3⟩, hrest⟩ := hcalls
    simp only [SampleLoader.consumedStream, List.map_cons, List.sum_cons]
    rw [ih _ _ _ (fill_stream_inv s B l dest copy consume idx u hB hs inv h1 h2).1 hrest,
      Nat.add_comm consume, ← List.range'_append_1 idx consume, List.map_append]
    congr 1
    rw [List.range'_eq_map_range idx consume, List.map_map]
    apply List.map_congr_left
    intro i hi
    have hi2 : i < consume := List.mem_range.mp hi
    have := fill_stream_content s B l dest copy consume idx hB inv h2 h3 i (by omega)
    simp only [Function.comp, this.1, this.2]


theorem setPreloadSize_wellFormed (allocOk : ℤ → Bool) (s : StreamingSamplerSound) (n : ℤ)
    (h : (s.setPreloadSize allocOk n).2 = none) : (s.setPreloadSize allocOk n).1.WellFormed := by
  unfold StreamingSamplerSound.setPreloadSize at h ⊢
  dsimp only at h ⊢
  split_ifs at h ⊢ with h1 h2
  all_goals first
    | (exfalso; simp at h; done)
    | (refine ⟨?_, ?_⟩
       · dsimp only; omega
       · intro i hi
         dsimp only at hi ⊢
         simp only [MemoryMappedAudioFormatReader.read, copy_apply]
         rw [if_pos (by omega), if_pos (by omega)]
         simp)

theorem rampSound_wellFormed (T : ℕ) : (rampSound T).WellFormed :=
  setPreloadSize_wellFormed _ _ _ rfl

theorem setPreloadSize_memoryReader (allocOk : ℤ → Bool) (s : StreamingSamplerSound) (n : ℤ) :
    (s.setPreloadSize allocOk n).1.memoryReader = s.memoryReader := by
  unfold StreamingSamplerSound.setPreloadSize
  dsimp only
  split_ifs <;> rfl

theorem rampSound_length (T : ℕ) : (rampSound T).memoryReader.lengthInSamples = T := by
  unfold rampSound
  rw [setPreloadSize_memoryReader]
  rfl


/-! ## C7: window content -/

/-- C7. For every `sampleIndex` and every `numSamplesToCopy ≤ bufferSize`, with
`readIndex = sampleIndex % bufferSize` (which the call stores in `readIndex`),
`fillSampleBlockBuffer` writes into `dest[0, numSamplesToCopy)` the first `numSamplesToCopy`
frames of (read buffer from `readIndex` to `bufferSize`) followed by (write buffer from 0),
the roles being those on entry; frames of `dest` from `numSamplesToCopy` on are untouched;
and when `readIndex + numSamplesToCopy ≤ bufferSize` every frame comes from the read
buffer. -/
theorem fillSampleBlockBuffer_window_content (l : SampleLoader) (dest : AudioSampleBuffer)
    (numSamplesToCopy numSamplesToConsume sampleIndex : ℕ)
    (hcopy : numSamplesToCopy ≤ l.bufferSize) :
    (l.fillSampleBlockBuffer dest numSamplesToCopy numSamplesToConsume sampleIndex).1.readIndex
      = sampleIndex % l.bufferSize ∧
    (List.range numSamplesToCopy).map
        (l.fillSampleBlockBuffer dest numSamplesToCopy numSamplesToConsume sampleIndex).2.ch0 =
      ((List.range' (sampleIndex % l.bufferSize)
            (l.bufferSize - sampleIndex % l.bufferSize)).map l.readBufferContent.ch0 ++
          (List.range l.bufferSize).map l.writeBufferContent.ch0).take numSamplesToCopy ∧
    (List.range numSamplesToCopy).map
        (l.fillSampleBlockBuffer dest numSamplesToCopy numSamplesToConsume sampleIndex).2.ch1 =
      ((List.range' (sampleIndex % l.bufferSize)
            (l.bufferSize - sampleIndex % l.bufferSize)).map l.readBufferContent.ch1 ++
          (List.range l.bufferSize).map l.writeBufferContent.ch1).take numSamplesToCopy ∧
    (∀ i, numSamplesToCopy ≤ i →
      (l.fillSampleBlockBuffer dest numSamplesToCopy numSamplesToConsume sampleIndex).2.ch0 i
        = dest.ch0 i ∧
      (l.fillSampleBlockBuffer dest numSamplesToCopy numSamplesToConsume sampleIndex).2.ch1 i
        = dest.ch1 i) ∧
    (sampleIndex % l.bufferSize + numSamplesToCopy ≤ l.bufferSize →
      ∀ i, i < numSamplesToCopy →
        (l.fillSampleBlockBuffer dest numSamplesToCopy numSamplesToConsume sampleIndex).2.ch0 i
          = l.readBufferContent.ch0 (sampleIndex % l.bufferSize + i) ∧
        (l.fillSampleBlockBuffer dest numSamplesToCopy numSamplesToConsume sampleIndex).2.ch1 i
          = l.readBufferContent.ch1 (sampleIndex % l.bufferSize + i)) := by
  refine ⟨?_, ?_, ?_, ?_, ?_⟩
  · by_cases h1 : sampleIndex % l.bufferSize + numSamplesToCopy < l.bufferSize
    · rw [fill_fst_fits _ _ _ _ _ h1]
    · by_cases h2 : sampleIndex % l.bufferSize + numSamplesToConsume ≥ l.bufferSize
      · rw [fill_fst_swap _ _ _ _ _ h1 h2]
        simp only [SampleLoader.swapBuffers, SampleLoader.requestNewData]
        split_ifs <;> split <;> rfl
      · rw [fill_fst_stay _ _ _ _ _ h1 h2]
  · apply list_window _ _ _ _ _ _ hcopy
    intro i hi
    rw [fill_dest_ch0, if_pos hi]
  · apply list_window _ _ _ _ _ _ hcopy
    intro i hi
    rw [fill_dest_ch1, if_pos hi]
  · intro i hi
    rw [fill_dest_ch0, fill_dest_ch1, if_neg (by omega), if_neg (by omega)]
    exact ⟨rfl, rfl⟩
  · intro h i hi
    rw [fill_dest_ch0, fill_dest_ch1, if_pos hi, if_pos hi, if_pos (by omega), if_pos (by omega)]
    exact ⟨rfl, rfl⟩

/-- C7, at a concrete input: a loader with buffers of 64 frames, a 10-frame window at
`sampleIndex = 60`. -/
theorem fillSampleBlockBuffer_window_content_witness :
    (10 ≤ (SampleLoader.create.setBufferSize 64).bufferSize) ∧
    (List.range 10).map ((SampleLoader.create.setBufferSize 64).fillSampleBlockBuffer
        (AudioSampleBuffer.alloc 16) 10 10 60).2.ch0 =
      ((List.range' (60 % (SampleLoader.create.setBufferSize 64).bufferSize)
            ((SampleLoader.create.setBufferSize 64).bufferSize -
              60 % (SampleLoader.create.setBufferSize 64).bufferSize)).map
          (SampleLoader.create.setBufferSize 64).readBufferContent.ch0 ++
        (List.range (SampleLoader.create.setBufferSize 64).bufferSize).map
          (SampleLoader.create.setBufferSize 64).writeBufferContent.ch0).take 10 :=
  ⟨by decide,
    (fillSampleBlockBuffer_window_content (SampleLoader.create.setBufferSize 64)
      (AudioSampleBuffer.alloc 16) 10 10 60 (by decide)).2.1⟩

/-! ## C1: loader round trip -/

/-- C1 (amended). For every `bufferSize ≥ 1`, every well-formed sound whose preload buffer
holds at least `bufferSize` frames and every loader with that buffer size and no refill
pending, after `startNote` (the refill it requests completing before the next call) every
sequence of `fillSampleBlockBuffer` calls whose `sampleIndex` starts at 0 and advances by
`numSamplesToConsume`, with `numSamplesToConsume ≤ numSamplesToCopy ≤ bufferSize` and
`sampleIndex + numSamplesToCopy ≤ streamableFrames bufferSize totalFrames`, returns in each
call exactly the frames `[sampleIndex, sampleIndex + numSamplesToCopy)` of the file, on both
channels; hence the consumed parts of the windows, concatenated, are the first frames of
the file. -/
theorem loader_round_trip (s : StreamingSamplerSound) (l : SampleLoader)
    (dest : AudioSampleBuffer) (bufferSize : ℕ) (diskUsageThisTime : ℚ)
    (calls : List (ℕ × ℕ))
    (hB : 1 ≤ bufferSize) (hs : s.WellFormed) (hP : (bufferSize : ℤ) ≤ s.preloadSize)
    (hsize : l.bufferSize = bufferSize) (hidle : l.writeBufferIsBeingFilled = false)
    (hjob : l.jobsInPool = 0)
    (hcalls : CallsSatisfy (fun sampleIndex numSamplesToCopy numSamplesToConsume =>
        numSamplesToConsume ≤ numSamplesToCopy ∧ numSamplesToCopy ≤ bufferSize ∧
        sampleIndex + numSamplesToCopy ≤
          streamableFrames bufferSize s.memoryReader.lengthInSamples) 0 calls) :
    (∀ r ∈ SampleLoader.streamWindows diskUsageThisTime
        ((l.startNote s).finishPendingJob diskUsageThisTime) dest 0 calls,
      ∀ i, i < r.2.1 →
        r.2.2.ch0 i = s.memoryReader.left (r.1 + i) ∧
        r.2.2.ch1 i = s.memoryReader.right (r.1 + i)) ∧
    SampleLoader.consumedStream diskUsageThisTime
        ((l.startNote s).finishPendingJob diskUsageThisTime) dest 0 calls =
      (List.range (calls.map Prod.snd).sum).map
        (fun i => (s.memoryReader.left i, s.memoryReader.right i)) := by
  have inv := (startNote_stream_inv s bufferSize l diskUsageThisTime hB hs hP hsize hidle
    hjob).1
  refine ⟨streamWindows_correct s bufferSize diskUsageThisTime hB hs calls _ dest 0 inv
    hcalls, ?_⟩
  rw [consumedStream_correct s bufferSize diskUsageThisTime hB hs calls _ dest 0 inv hcalls,
    List.range_eq_range']

/-- C1 (amended), at a concrete input: the 100-frame ramp, buffers of 64 frames, one call
that copies 64 frames and consumes 60. -/
theorem loader_round_trip_witness :
    (1 ≤ 64 ∧ ((64 : ℕ) : ℤ) ≤ (rampSound 100).preloadSize) ∧
    (∀ r ∈ SampleLoader.streamWindows 0
        (((SampleLoader.create.setBufferSize 64).startNote (rampSound 100)).finishPendingJob 0)
        (AudioSampleBuffer.alloc 64) 0 [(64, 60)],
      ∀ i, i < r.2.1 →
        r.2.2.ch0 i = (rampSound 100).memoryReader.left (r.1 + i) ∧
        r.2.2.ch1 i = (rampSound 100).memoryReader.right (r.1 + i)) ∧
    SampleLoader.consumedStream 0
        (((SampleLoader.create.setBufferSize 64).startNote (rampSound 100)).finishPendingJob 0)
        (AudioSampleBuffer.alloc 64) 0 [(64, 60)] =
      (List.range ([(64, 60)].map Prod.snd).sum).map
        (fun i => ((rampSound 100).memoryReader.left i, (rampSound 100).memoryReader.right i)) :=
  ⟨⟨by decide, by decide⟩,
    loader_round_trip (rampSound 100) (SampleLoader.create.setBufferSize 64)
      (AudioSampleBuffer.alloc 64) 64 0 [(64, 60)] (by decide) (rampSound_wellFormed 100)
      (by decide) rfl rfl rfl
      (by
        rw [rampSound_length]
        simp [CallsSatisfy, streamableFrames])⟩

/-- C1 as stated fails: on the 100-frame ramp with buffers of 64 frames, the calls
`(copy 64, consume 60)` at `sampleIndex = 0` and `(copy 10, consume 10)` at
`sampleIndex = 60` satisfy every hypothesis of the claim (`60 + 10 < 100`), yet the second
call returns 0 instead of source frame 64 at offset 4: the chunk `[64, 128)` does not end
strictly before the end of the file, so `fillInactiveBuffer` never loads it. -/
theorem loader_round_trip_counterexample :
    (1 ≤ 64 ∧ (rampSound 100).WellFormed ∧ ((64 : ℕ) : ℤ) ≤ (rampSound 100).preloadSize ∧
      (SampleLoader.create.setBufferSize 64).bufferSize = 64 ∧
      (SampleLoader.create.setBufferSize 64).writeBufferIsBeingFilled = false ∧
      (SampleLoader.create.setBufferSize 64).jobsInPool = 0 ∧
      CallsSatisfy (fun sampleIndex numSamplesToCopy numSamplesToConsume =>
        numSamplesToConsume ≤ numSamplesToCopy ∧ numSamplesToCopy ≤ 64 ∧
        sampleIndex + numSamplesToCopy < (rampSound 100).memoryReader.lengthInSamples)
        0 [(64, 60), (10, 10)]) ∧
    ¬ (∀ r ∈ SampleLoader.streamWindows 0
        (((SampleLoader.create.setBufferSize 64).startNote (rampSound 100)).finishPendingJob 0)
        (AudioSampleBuffer.alloc 64) 0 [(64, 60), (10, 10)],
      ∀ i, i < r.2.1 →
        r.2.2.ch0 i = (rampSound 100).memoryReader.left (r.1 + i) ∧
        r.2.2.ch1 i = (rampSound 100).memoryReader.right (r.1 + i)) := by
  refine ⟨⟨by decide, rampSound_wellFormed 100, by decide, rfl, rfl, rfl, ?_⟩, ?_⟩
  · rw [rampSound_length]
    simp [CallsSatisfy]
  · intro h
    simp only [SampleLoader.streamWindows, List.forall_mem_cons] at h
    have h4 := (h.2.1 4 (by decide)).1
    have hl : (rampSound 100).memoryReader.left (0 + 60 + 4) = 65 := by
      rw [show (rampSound 100).memoryReader.left = (rampReader 100).left from
        congrArg MemoryMappedAudioFormatReader.left (setPreloadSize_memoryReader _ _ _)]
      simp [rampReader]
      norm_num
    rw [hl] at h4
    revert h4
    decide


theorem swapBuffers_snd (l : SampleLoader) :
    l.swapBuffers.2 = (l.writeBufferIsBeingFilled == false) := by
  unfold SampleLoader.swapBuffers
  dsimp only
  split <;> rfl

theorem swapBuffers_flag (l : SampleLoader) :
    l.swapBuffers.1.writeBufferIsBeingFilled = l.writeBufferIsBeingFilled := by
  unfold SampleLoader.swapBuffers
  dsimp only
  split <;> rfl

theorem swapBuffers_jobs (l : SampleLoader) : l.swapBuffers.1.jobsInPool = l.jobsInPool := by
  unfold SampleLoader.swapBuffers
  dsimp only
  split <;> rfl

theorem swapBuffers_trace (l : SampleLoader) :
    l.swapBuffers.1.trace =
      LoaderEvent.swapBuffers (l.writeBufferIsBeingFilled == false) :: l.trace := by
  unfold SampleLoader.swapBuffers
  dsimp only
  split <;> rfl

/-- What `fillSampleBlockBuffer` does to the flag, the pool and the trace. -/
theorem fill_protocol (l : SampleLoader) (dest : AudioSampleBuffer) (copy consume idx : ℕ) :
    ((l.fillSampleBlockBuffer dest copy consume idx).1.writeBufferIsBeingFilled
        = l.writeBufferIsBeingFilled ∧
      (l.fillSampleBlockBuffer dest copy consume idx).1.jobsInPool = l.jobsInPool ∧
      ∀ b, LoaderEvent.requestNewData b ∈ (l.fillSampleBlockBuffer dest copy consume idx).1.trace →
        LoaderEvent.requestNewData b ∈ l.trace) ∨
    (l.writeBufferIsBeingFilled = false ∧
      (l.fillSampleBlockBuffer dest copy consume idx).1.writeBufferIsBeingFilled = true ∧
      (l.fillSampleBlockBuffer dest copy consume idx).1.jobsInPool = l.jobsInPool + 1 ∧
      ∀ b, LoaderEvent.requestNewData b ∈ (l.fillSampleBlockBuffer dest copy consume idx).1.trace →
        b = false ∨ LoaderEvent.requestNewData b ∈ l.trace) := by
  by_cases h1 : idx % l.bufferSize + copy < l.bufferSize
  · rw [fill_fst_fits _ _ _ _ _ h1]
    exact Or.inl ⟨rfl, rfl, fun _ h => h⟩
  · by_cases h2 : idx % l.bufferSize + consume ≥ l.bufferSize
    · rw [fill_fst_swap _ _ _ _ _ h1 h2]
      dsimp only
      rw [swapBuffers_snd]
      cases hf : l.writeBufferIsBeingFilled
      · right
        simp [SampleLoader.requestNewData, swapBuffers_flag, swapBuffers_jobs,
          swapBuffers_trace, hf]
      · left
        simp [swapBuffers_flag, swapBuffers_jobs, swapBuffers_trace, hf]
    · rw [fill_fst_stay _ _ _ _ _ h1 h2]
      refine Or.inl ⟨rfl, rfl, fun b h => ?_⟩
      simpa using h

/-- The invariant behind C5. -/
theorem reachable_protocol (l : SampleLoader) (h : l.Reachable) :
    (l.jobsInPool = if l.writeBufferIsBeingFilled then 1 else 0) ∧
    ∀ b, LoaderEvent.requestNewData b ∈ l.trace → b = false := by
  induction h with
  | create =>
    refine ⟨rfl, ?_⟩
    intro b hb
    simp [SampleLoader.create, SampleLoader.setBufferSize, SampleLoader.reset] at hb
  | setBufferSize l n _ ih =>
    refine ⟨ih.1, ?_⟩
    intro b hb
    simp [SampleLoader.setBufferSize, SampleLoader.reset] at hb
    exact ih.2 b hb
  | startNote l s _ ih =>
    cases hf : l.writeBufferIsBeingFilled
    · have hj := ih.1
      rw [hf] at hj
      simp only [SampleLoader.startNote, SampleLoader.requestNewData, hf]
      refine ⟨by simp [hj], ?_⟩
      intro b hb
      simp at hb
      rcases hb with hb | hb
      · exact hb
      · exact ih.2 b hb
    · have hj := ih.1
      rw [hf] at hj
      simp only [SampleLoader.startNote, SampleLoader.requestNewData, hf]
      refine ⟨by simp [hj], ?_⟩
      intro b hb
      simp at hb
      exact ih.2 b hb
  | fillSampleBlockBuffer l dest copy consume idx _ ih =>
    rcases fill_protocol l dest copy consume idx with ⟨e1, e2, e3⟩ | ⟨e0, e1, e2, e3⟩
    · rw [e1, e2]
      exact ⟨ih.1, fun b hb => ih.2 b (e3 b hb)⟩
    · rw [e1, e2]
      have hj := ih.1
      rw [e0] at hj
      refine ⟨by simp [hj], fun b hb => ?_⟩
      rcases e3 b hb with h | h
      · exact h
      · exact ih.2 b h
  | reset l _ ih => exact ih
  | getDiskUsage l _ ih => exact ih
  | runJob l u _ hpos ih =>
    have hj := ih.1
    cases hf : l.writeBufferIsBeingFilled
    · rw [hf] at hj; simp at hj; omega
    · rw [hf] at hj
      simp at hj
      have e : (l.runJob u).trace = l.trace := by
        simp only [SampleLoader.runJob, SampleLoader.fillInactiveBuffer]
        split
        · split_ifs
          · simp only [SampleLoader.setStreamBuffer]; split <;> rfl
          · rfl
        · rfl
      have e2 : (l.runJob u).jobsInPool = l.jobsInPool - 1 := by
        simp only [SampleLoader.runJob, SampleLoader.fillInactiveBuffer]
        split
        · split_ifs
          · simp only [SampleLoader.setStreamBuffer]; split <;> rfl
          · rfl
        · rfl
      have e3 : (l.runJob u).writeBufferIsBeingFilled = false := rfl
      rw [e, e2, e3, hj]
      exact ⟨rfl, ih.2⟩


theorem swapBuffers_roles (l : SampleLoader) :
    (l.readBuffer = ReadPointer.own StreamBuffer.b1 ∧
      l.swapBuffers.1.readBuffer = ReadPointer.own StreamBuffer.b2 ∧
      l.swapBuffers.1.writeBuffer = StreamBuffer.b1) ∨
    (l.readBuffer ≠ ReadPointer.own StreamBuffer.b1 ∧
      l.swapBuffers.1.readBuffer = ReadPointer.own StreamBuffer.b1 ∧
      l.swapBuffers.1.writeBuffer = StreamBuffer.b2) := by
  unfold SampleLoader.swapBuffers
  dsimp only
  split
  · rename_i h; exact Or.inl ⟨h, rfl, rfl⟩
  · rename_i h; exact Or.inr ⟨fun h2 => h h2, rfl, rfl⟩

theorem roleHistory_cons_other (l : SampleLoader) (e : LoaderEvent) (t : List LoaderEvent)
    (ht : l.trace = e :: t) (he : e.bindsRoles = false) : l.roleHistory = t.filter LoaderEvent.bindsRoles := by
  unfold SampleLoader.roleHistory
  rw [ht, List.filter_cons_of_neg (by simp [he])]

/-- What `fillSampleBlockBuffer` does to the roles. -/
theorem fill_roles (l : SampleLoader) (dest : AudioSampleBuffer) (copy consume idx : ℕ) :
    ((l.fillSampleBlockBuffer dest copy consume idx).1.readBuffer = l.readBuffer ∧
      (l.fillSampleBlockBuffer dest copy consume idx).1.writeBuffer = l.writeBuffer ∧
      (l.fillSampleBlockBuffer dest copy consume idx).1.roleHistory = l.roleHistory) ∨
    ((∃ b, (l.fillSampleBlockBuffer dest copy consume idx).1.roleHistory =
        LoaderEvent.swapBuffers b :: l.roleHistory) ∧
      ((l.readBuffer = ReadPointer.own StreamBuffer.b1 ∧
          (l.fillSampleBlockBuffer dest copy consume idx).1.readBuffer
            = ReadPointer.own StreamBuffer.b2 ∧
          (l.fillSampleBlockBuffer dest copy consume idx).1.writeBuffer = StreamBuffer.b1) ∨
        (l.readBuffer ≠ ReadPointer.own StreamBuffer.b1 ∧
          (l.fillSampleBlockBuffer dest copy consume idx).1.readBuffer
            = ReadPointer.own StreamBuffer.b1 ∧
          (l.fillSampleBlockBuffer dest copy consume idx).1.writeBuffer = StreamBuffer.b2))) := by
  by_cases h1 : idx % l.bufferSize + copy < l.bufferSize
  · rw [fill_fst_fits _ _ _ _ _ h1]
    exact Or.inl ⟨rfl, rfl, rfl⟩
  · by_cases h2 : idx % l.bufferSize + consume ≥ l.bufferSize
    · right
      rw [fill_fst_swap _ _ _ _ _ h1 h2]
      dsimp only
      generalize hl2 : ({ l with
        readIndex := idx % l.bufferSize
        trace := LoaderEvent.peekWriteBuffer (copy - (l.bufferSize - idx % l.bufferSize))
          l.writeBufferIsBeingFilled :: l.trace } : SampleLoader) = l2
      have hrd : l2.readBuffer = l.readBuffer := by rw [← hl2]
      have htr : l2.roleHistory = l.roleHistory := by
        rw [← hl2]
        exact roleHistory_cons_other _ _ _ rfl rfl
      have hr := swapBuffers_roles l2
      rw [hrd] at hr
      have ht := swapBuffers_trace l2
      split_ifs
      · refine ⟨⟨l2.writeBufferIsBeingFilled == false, ?_⟩, hr⟩
        simp only [SampleLoader.roleHistory, SampleLoader.requestNewData, ht]
        rw [List.filter_cons_of_neg (by simp [LoaderEvent.bindsRoles]),
          List.filter_cons_of_pos (by simp [LoaderEvent.bindsRoles])]
        exact congrArg (List.cons _) htr
      · refine ⟨⟨l2.writeBufferIsBeingFilled == false, ?_⟩, hr⟩
        simp only [SampleLoader.roleHistory, ht]
        rw [List.filter_cons_of_pos (by simp [LoaderEvent.bindsRoles])]
        exact congrArg (List.cons _) htr
    · rw [fill_fst_stay _ _ _ _ _ h1 h2]
      exact Or.inl ⟨rfl, rfl, roleHistory_cons_other _ _ _ rfl rfl⟩

theorem runJob_roles (l : SampleLoader) (u : ℚ) :
    (l.runJob u).readBuffer = l.readBuffer ∧ (l.runJob u).writeBuffer = l.writeBuffer ∧
    (l.runJob u).trace = l.trace := by
  simp only [SampleLoader.runJob, SampleLoader.fillInactiveBuffer]
  split
  · split_ifs
    · simp only [SampleLoader.setStreamBuffer]; split <;> exact ⟨rfl, rfl, rfl⟩
    · exact ⟨rfl, rfl, rfl⟩
  · exact ⟨rfl, rfl, rfl⟩

/-- The invariant behind C6. -/
theorem reachable_roles (l : SampleLoader) (h : l.Reachable) :
    l.RolesOk ∧
    ((∃ s, l.readBuffer = ReadPointer.preloadBuffer s) ↔
      l.roleHistory.head? = some LoaderEvent.startNote) ∧
    (∀ b rest, l.roleHistory = LoaderEvent.swapBuffers b :: LoaderEvent.startNote :: rest →
      l.readBuffer = ReadPointer.own StreamBuffer.b1 ∧ l.writeBuffer = StreamBuffer.b2) := by
  induction h with
  | create =>
    refine ⟨Or.inl ⟨rfl, rfl⟩, ?_, ?_⟩
    · simp [SampleLoader.create, SampleLoader.setBufferSize, SampleLoader.reset,
        SampleLoader.roleHistory, LoaderEvent.bindsRoles]
    · intro b rest hb
      simp [SampleLoader.create, SampleLoader.setBufferSize, SampleLoader.reset,
        SampleLoader.roleHistory, LoaderEvent.bindsRoles] at hb
  | setBufferSize l n _ ih =>
    refine ⟨Or.inl ⟨rfl, rfl⟩, ?_, ?_⟩
    · simp [SampleLoader.setBufferSize, SampleLoader.reset,
        SampleLoader.roleHistory, LoaderEvent.bindsRoles]
    · intro b rest hb
      simp [SampleLoader.setBufferSize, SampleLoader.reset,
        SampleLoader.roleHistory, LoaderEvent.bindsRoles] at hb
  | startNote l s _ ih =>
    have e : (l.startNote s).readBuffer = ReadPointer.preloadBuffer s ∧
        (l.startNote s).writeBuffer = StreamBuffer.b1 ∧
        (l.startNote s).roleHistory = LoaderEvent.startNote :: l.roleHistory := by
      simp only [SampleLoader.startNote, SampleLoader.requestNewData, SampleLoader.roleHistory]
      split_ifs <;> simp [LoaderEvent.bindsRoles]
    obtain ⟨e1, e2, e3⟩ := e
    refine ⟨Or.inr (Or.inr ⟨s, e1, e2⟩), ?_, ?_⟩
    · rw [e1, e3]; simp
    · intro b rest hb
      rw [e3] at hb
      simp at hb
  | fillSampleBlockBuffer l dest copy consume idx _ ih =>
    obtain ⟨i1, i2, i3⟩ := ih
    rcases fill_roles l dest copy consume idx with ⟨e1, e2, e3⟩ | ⟨⟨b, e3⟩, e⟩
    · refine ⟨?_, ?_, ?_⟩
      · unfold SampleLoader.RolesOk
        rw [e1, e2]
        exact i1
      · rw [e1, e3]; exact i2
      · rw [e1, e2, e3]; exact i3
    · refine ⟨?_, ?_, ?_⟩
      · rcases e with ⟨_, e1, e2⟩ | ⟨_, e1, e2⟩
        · exact Or.inr (Or.inl ⟨e1, e2⟩)
        · exact Or.inl ⟨e1, e2⟩
      · rw [e3]
        constructor
        · rintro ⟨s, hs⟩
          rcases e with ⟨_, e1, _⟩ | ⟨_, e1, _⟩ <;> rw [e1] at hs <;> cases hs
        · intro h
          simp at h
      · intro b2 rest hb
        rw [e3] at hb
        have hh : l.roleHistory.head? = some LoaderEvent.startNote := by
          simp only [List.cons.injEq] at hb
          rw [hb.2]; rfl
        obtain ⟨s, hs⟩ := i2.2 hh
        rcases e with ⟨e0, _, _⟩ | ⟨_, e1, e2⟩
        · rw [hs] at e0; cases e0
        · exact ⟨e1, e2⟩
  | reset l _ ih => exact ih
  | getDiskUsage l _ ih => exact ih
  | runJob l u _ _ ih =>
    obtain ⟨e1, e2, e3⟩ := runJob_roles l u
    have e4 : (l.runJob u).roleHistory = l.roleHistory := by
      unfold SampleLoader.roleHistory; rw [e3]
    unfold SampleLoader.RolesOk
    rw [e1, e2, e4]
    exact ih


/-! ## C4: starvation guard -/

/-- C4 fails in the code.  `starvedLoader` is reachable and has a refill in flight
(`writeBufferIsBeingFilled = true`); a call that copies 10 frames and consumes 8 at
`sampleIndex = 60` nevertheless copies 6 frames out of the write buffer (frame 4 of the
result is frame 0 of the write buffer, which is 0 and not source frame 64), and only then
calls `swapBuffers`, which returns `false`. -/
theorem starvation_peek_reads_write_buffer :
    starvedLoader.Reachable ∧ starvedLoader.writeBufferIsBeingFilled = true ∧
    (starvedLoader.fillSampleBlockBuffer (AudioSampleBuffer.alloc 16) 10 8 60).1.trace =
      [LoaderEvent.swapBuffers false, LoaderEvent.peekWriteBuffer 6 true,
        LoaderEvent.requestNewData false, LoaderEvent.startNote, LoaderEvent.setBufferSize,
        LoaderEvent.setBufferSize] ∧
    (starvedLoader.fillSampleBlockBuffer (AudioSampleBuffer.alloc 16) 10 8 60).2.ch0 4 =
      starvedLoader.writeBufferContent.ch0 0 ∧
    (starvedLoader.fillSampleBlockBuffer (AudioSampleBuffer.alloc 16) 10 8 60).2.ch0 4 ≠
      (rampSound 1000).memoryReader.left 64 := by
  refine ⟨?_, by decide, by decide, by decide, ?_⟩
  · exact SampleLoader.Reachable.startNote _ _
      (SampleLoader.Reachable.setBufferSize _ _ SampleLoader.Reachable.create)
  · have hl : (rampSound 1000).memoryReader.left 64 = 65 := by
      rw [show (rampSound 1000).memoryReader.left = (rampReader 1000).left from
        congrArg MemoryMappedAudioFormatReader.left (setPreloadSize_memoryReader _ _ _)]
      simp [rampReader]
      norm_num
    rw [hl]
    decide

/-! ## C5: single-slot pipeline -/

/-- C5. In every reachable loader state, every `requestNewData` call recorded in the trace
was entered with `writeBufferIsBeingFilled = false`, at most one refill job is in the pool,
and the flag is set exactly when one is. -/
theorem single_slot_pipeline (l : SampleLoader) (h : l.Reachable) :
    (∀ b, LoaderEvent.requestNewData b ∈ l.trace → b = false) ∧ l.jobsInPool ≤ 1 ∧
    (l.writeBufferIsBeingFilled = true ↔ l.jobsInPool = 1) := by
  obtain ⟨h1, h2⟩ := reachable_protocol l h
  refine ⟨h2, ?_, ?_⟩
  · rw [h1]; split_ifs <;> omega
  · rw [h1]; cases l.writeBufferIsBeingFilled <;> simp

/-- C5, at a concrete reachable state. -/
theorem single_slot_pipeline_witness :
    (∀ b, LoaderEvent.requestNewData b ∈ starvedLoader.trace → b = false) ∧
    starvedLoader.jobsInPool ≤ 1 ∧
    (starvedLoader.writeBufferIsBeingFilled = true ↔ starvedLoader.jobsInPool = 1) :=
  single_slot_pipeline starvedLoader
    (SampleLoader.Reachable.startNote _ _
      (SampleLoader.Reachable.setBufferSize _ _ SampleLoader.Reachable.create))

/-! ## C6: buffer roles -/

/-- C6. In every reachable loader state the pair `(readBuffer, writeBuffer)` is `(b1, b2)`,
`(b2, b1)` or `(preload buffer of a sound, b1)`, so the two roles are bound to different
buffers; `readBuffer` is a preload buffer exactly when the most recent call that bound the
roles is `startNote` (no swap since); and when the two most recent such calls are a swap
preceded by `startNote`, the pair is `(b1, b2)`. -/
theorem buffer_roles (l : SampleLoader) (h : l.Reachable) :
    ((l.readBuffer = ReadPointer.own StreamBuffer.b1 ∧ l.writeBuffer = StreamBuffer.b2) ∨
      (l.readBuffer = ReadPointer.own StreamBuffer.b2 ∧ l.writeBuffer = StreamBuffer.b1) ∨
      (∃ s, l.readBuffer = ReadPointer.preloadBuffer s ∧ l.writeBuffer = StreamBuffer.b1)) ∧
    l.readBuffer ≠ ReadPointer.own l.writeBuffer ∧
    ((∃ s, l.readBuffer = ReadPointer.preloadBuffer s) ↔
      l.roleHistory.head? = some LoaderEvent.startNote) ∧
    (∀ b rest, l.roleHistory = LoaderEvent.swapBuffers b :: LoaderEvent.startNote :: rest →
      l.readBuffer = ReadPointer.own StreamBuffer.b1 ∧ l.writeBuffer = StreamBuffer.b2) := by
  obtain ⟨h1, h2, h3⟩ := reachable_roles l h
  refine ⟨h1, ?_, h2, h3⟩
  rcases h1 with ⟨a, b⟩ | ⟨a, b⟩ | ⟨s, a, b⟩ <;> rw [a, b] <;> intro hc <;> cases hc

/-- C6, at a concrete reachable state: after the first swap of a note. -/
theorem buffer_roles_witness :
    (((starvedLoader.runJob 0).fillSampleBlockBuffer (AudioSampleBuffer.alloc 16) 10 8 60).1.readBuffer
        = ReadPointer.own StreamBuffer.b1 ∧
      ((starvedLoader.runJob 0).fillSampleBlockBuffer (AudioSampleBuffer.alloc 16) 10 8 60).1.writeBuffer
        = StreamBuffer.b2) ∨
    (((starvedLoader.runJob 0).fillSampleBlockBuffer (AudioSampleBuffer.alloc 16) 10 8 60).1.readBuffer
        = ReadPointer.own StreamBuffer.b2 ∧
      ((starvedLoader.runJob 0).fillSampleBlockBuffer (AudioSampleBuffer.alloc 16) 10 8 60).1.writeBuffer
        = StreamBuffer.b1) ∨
    (∃ s, ((starvedLoader.runJob 0).fillSampleBlockBuffer (AudioSampleBuffer.alloc 16) 10 8
          60).1.readBuffer = ReadPointer.preloadBuffer s ∧
      ((starvedLoader.runJob 0).fillSampleBlockBuffer (AudioSampleBuffer.alloc 16) 10 8 60).1.writeBuffer
        = StreamBuffer.b1) :=
  (buffer_roles _
    (SampleLoader.Reachable.fillSampleBlockBuffer _ _ _ _ _
      (SampleLoader.Reachable.runJob _ _
        (SampleLoader.Reachable.startNote _ _
          (SampleLoader.Reachable.setBufferSize _ _ SampleLoader.Reachable.create))
        (by decide)))).1


/-! ## Lemmas about the voice -/

theorem truncToInt_natCast (n : ℕ) : truncToInt (n : ℚ) = (n : ℤ) := by
  unfold truncToInt
  rw [if_pos (Nat.cast_nonneg n)]
  exact Int.floor_natCast n

theorem truncToInt_zero : truncToInt 0 = 0 := by
  have := truncToInt_natCast 0
  simpa using this

theorem jmin_eq_min (a b : ℚ) : jmin a b = min a b := by
  unfold jmin
  split_ifs with h
  · exact (min_eq_right (le_of_lt h)).symm
  · exact (min_eq_left (not_lt.mp h)).symm

theorem numSamplesUsedLoop_none (v : StreamingSamplerVoice) (hp : v.pitchData = none)
    (n i : ℕ) (acc : ℚ) : v.numSamplesUsedLoop n i acc = acc + n * v.uptimeDelta := by
  induction n generalizing i acc with
  | zero => simp [StreamingSamplerVoice.numSamplesUsedLoop]
  | succ n ih =>
    unfold StreamingSamplerVoice.numSamplesUsedLoop
    simp only [hp]
    rw [ih]
    push_cast
    ring

theorem cursorAt_shift (pd : Option (ℕ → ℚ)) (d vu : ℚ) (st i : ℕ) :
    cursorAt pd d vu st (i + 1) =
      cursorAt pd d (vu + d * pitchFactorAt pd st) (st + 1) i := by
  induction i with
  | zero => simp [cursorAt]
  | succ i ih =>
    have e : st + (i + 1) = st + 1 + i := by omega
    rw [cursorAt.eq_def pd d vu st (i + 1 + 1)]
    dsimp only
    rw [ih, e]
    rfl

/-- The `while` loop of `renderNextBlock`, frame by frame. -/
theorem renderLoop_spec (pos : ℤ) (pd : Option (ℕ → ℚ)) (d : ℚ) (inL inR : ℕ → ℚ) (n : ℕ) :
    ∀ (vu : ℚ) (st : ℕ) (outL outR : ℕ → ℚ),
      (renderLoop pos pd d inL inR n vu st outL outR).1 = cursorAt pd d vu st n ∧
      (∀ j, (renderLoop pos pd d inL inR n vu st outL outR).2.1 j =
        if st ≤ j ∧ j < st + n then
          outL j + interpolate pos inL (cursorAt pd d vu st (j - st))
        else outL j) ∧
      (∀ j, (renderLoop pos pd d inL inR n vu st outL outR).2.2 j =
        if st ≤ j ∧ j < st + n then
          outR j + interpolate pos inR (cursorAt pd d vu st (j - st))
        else outR j) := by
  induction n with
  | zero =>
    intro vu st outL outR
    refine ⟨rfl, fun j => ?_, fun j => ?_⟩ <;>
    · rw [if_neg (by omega)]; rfl
  | succ n ih =>
    intro vu st outL outR
    unfold renderLoop
    dsimp only
    obtain ⟨h1, h2, h3⟩ := ih (vu + d * pitchFactorAt pd st) (st + 1)
      (Function.update outL st (outL st + interpolate pos inL vu))
      (Function.update outR st (outR st + interpolate pos inR vu))
    refine ⟨?_, fun j => ?_, fun j => ?_⟩
    · rw [h1, cursorAt_shift]
    · rw [h2]
      by_cases hj : j = st
      · subst hj
        rw [if_neg (by omega), if_pos (by omega)]
        simp [cursorAt]
      · rw [Function.update_noteq hj]
        by_cases hj2 : st + 1 ≤ j ∧ j < st + 1 + n
        · rw [if_pos hj2, if_pos (by omega)]
          have e : j - st = (j - (st + 1)) + 1 := by omega
          rw [e, cursorAt_shift]
        · rw [if_neg hj2, if_neg (by omega)]
    · rw [h3]
      by_cases hj : j = st
      · subst hj
        rw [if_neg (by omega), if_pos (by omega)]
        simp [cursorAt]
      · rw [Function.update_noteq hj]
        by_cases hj2 : st + 1 ≤ j ∧ j < st + 1 + n
        · rw [if_pos hj2, if_pos (by omega)]
          have e : j - st = (j - (st + 1)) + 1 := by omega
          rw [e, cursorAt_shift]
        · rw [if_neg hj2, if_neg (by omega)]

theorem render_unbound (v : StreamingSamplerVoice) (out : AudioSampleBuffer) (st n : ℕ)
    (h : v.loader.sound = none) : v.renderNextBlock out st n = (v, out) := by
  unfold StreamingSamplerVoice.renderNextBlock
  rw [h]

theorem render_endOfStream (v : StreamingSamplerVoice) (out : AudioSampleBuffer) (st n : ℕ)
    (s : StreamingSamplerSound) (h : v.loader.sound = some s)
    (he : s.hasEnoughSamplesForBlock (v.pos + v.samplesToCopy st n) = false) :
    v.renderNextBlock out st n = (v.resetVoice, out) := by
  unfold StreamingSamplerVoice.renderNextBlock
  rw [h]
  simp [he]

theorem render_playing (v : StreamingSamplerVoice) (out : AudioSampleBuffer) (st n : ℕ)
    (s : StreamingSamplerSound) (h : v.loader.sound = some s)
    (he : s.hasEnoughSamplesForBlock (v.pos + v.samplesToCopy st n) = true) :
    v.renderNextBlock out st n =
      ({ v with
          loader := (v.loader.fillSampleBlockBuffer v.samplesForThisBlock
            (v.samplesToCopy st n).toNat (truncToInt (v.numSamplesUsed st n)).toNat
            v.pos.toNat).1
          samplesForThisBlock := (v.loader.fillSampleBlockBuffer v.samplesForThisBlock
            (v.samplesToCopy st n).toNat (truncToInt (v.numSamplesUsed st n)).toNat
            v.pos.toNat).2
          voiceUptime := (renderLoop v.pos v.pitchData v.uptimeDelta
            (v.loader.fillSampleBlockBuffer v.samplesForThisBlock
              (v.samplesToCopy st n).toNat (truncToInt (v.numSamplesUsed st n)).toNat
              v.pos.toNat).2.ch0
            (v.loader.fillSampleBlockBuffer v.samplesForThisBlock
              (v.samplesToCopy st n).toNat (truncToInt (v.numSamplesUsed st n)).toNat
              v.pos.toNat).2.ch1 n v.voiceUptime st out.ch0 out.ch1).1 },
        { out with
          ch0 := (renderLoop v.pos v.pitchData v.uptimeDelta
            (v.loader.fillSampleBlockBuffer v.samplesForThisBlock
              (v.samplesToCopy st n).toNat (truncToInt (v.numSamplesUsed st n)).toNat
              v.pos.toNat).2.ch0
            (v.loader.fillSampleBlockBuffer v.samplesForThisBlock
              (v.samplesToCopy st n).toNat (truncToInt (v.numSamplesUsed st n)).toNat
              v.pos.toNat).2.ch1 n v.voiceUptime st out.ch0 out.ch1).2.1
          ch1 := (renderLoop v.pos v.pitchData v.uptimeDelta
            (v.loader.fillSampleBlockBuffer v.samplesForThisBlock
              (v.samplesToCopy st n).toNat (truncToInt (v.numSamplesUsed st n)).toNat
              v.pos.toNat).2.ch0
            (v.loader.fillSampleBlockBuffer v.samplesForThisBlock
              (v.samplesToCopy st n).toNat (truncToInt (v.numSamplesUsed st n)).toNat
              v.pos.toNat).2.ch1 n v.voiceUptime st out.ch0 out.ch1).2.2 }) := by
  unfold StreamingSamplerVoice.renderNextBlock
  rw [h]
  simp [he]


/-! ## C8: pitch factor -/

/-- C8. With `pow` the real power function, for every root note:
`getPitchFactor (rootNote) = 1`, `getPitchFactor (rootNote + 12) = 2`,
`getPitchFactor (note) = 2 ^ ((note - rootNote) / 12)` for every integer note, and
`getPitchFactor` is strictly increasing in the note number. -/
theorem getPitchFactor_properties (rootNote : ℤ) :
    getPitchFactor (fun x y : ℝ => x ^ y) rootNote rootNote = 1 ∧
    getPitchFactor (fun x y : ℝ => x ^ y) rootNote (rootNote + 12) = 2 ∧
    (∀ note : ℤ, getPitchFactor (fun x y : ℝ => x ^ y) rootNote note =
      (2 : ℝ) ^ (((note : ℝ) - (rootNote : ℝ)) / 12)) ∧
    StrictMono (getPitchFactor (fun x y : ℝ => x ^ y) rootNote) := by
  refine ⟨?_, ?_, ?_, ?_⟩
  · simp [getPitchFactor]
  · simp [getPitchFactor]
  · intro note
    simp [getPitchFactor]
  · intro a b hab
    simp only [getPitchFactor]
    rw [Real.rpow_lt_rpow_left_iff (by norm_num : (1 : ℝ) < 2)]
    have h : ((a - rootNote : ℤ) : ℝ) < ((b - rootNote : ℤ) : ℝ) := by
      exact_mod_cast (by omega : a - rootNote < b - rootNote)
    linarith

/-! ## C9: pitch clamp -/

theorem render_uptimeDelta (v : StreamingSamplerVoice) (out : AudioSampleBuffer) (st n : ℕ) :
    (v.renderNextBlock out st n).1.uptimeDelta = v.uptimeDelta ∨
    (v.renderNextBlock out st n).1.uptimeDelta = 0 := by
  cases hs : v.loader.sound with
  | none => rw [render_unbound v out st n hs]; exact Or.inl rfl
  | some s =>
    cases he : s.hasEnoughSamplesForBlock (v.pos + v.samplesToCopy st n) with
    | false => rw [render_endOfStream v out st n s hs he]; exact Or.inr rfl
    | true => rw [render_playing v out st n s hs he]; exact Or.inl rfl

/-- C9. Provided the library `pow (2.0, x)` is never negative: `startNote` sets
`voiceUptime = 0` and `uptimeDelta = min (getPitchFactor (note), MAX_SAMPLER_PITCH)`, and in
every voice state reachable after a `startNote`, `0 ≤ uptimeDelta ≤ MAX_SAMPLER_PITCH = 8`. -/
theorem pitch_clamp (pow : ℚ → ℚ → ℚ) (hpow : ∀ x, 0 ≤ pow 2 x) :
    (MAX_SAMPLER_PITCH = 8) ∧
    (∀ (v : StreamingSamplerVoice) (midiNoteNumber : ℤ) (sound : StreamingSamplerSound),
      (v.startNote pow midiNoteNumber sound).voiceUptime = 0 ∧
      (v.startNote pow midiNoteNumber sound).uptimeDelta =
        min (getPitchFactor pow sound.rootNote midiNoteNumber) (MAX_SAMPLER_PITCH : ℚ)) ∧
    (∀ v : StreamingSamplerVoice, v.ReachableAfterStart pow →
      0 ≤ v.uptimeDelta ∧ v.uptimeDelta ≤ (MAX_SAMPLER_PITCH : ℚ)) := by
  have h8 : (0 : ℚ) ≤ (MAX_SAMPLER_PITCH : ℚ) := Nat.cast_nonneg _
  have hstart : ∀ (v : StreamingSamplerVoice) (midiNoteNumber : ℤ)
      (sound : StreamingSamplerSound),
      (v.startNote pow midiNoteNumber sound).voiceUptime = 0 ∧
      (v.startNote pow midiNoteNumber sound).uptimeDelta =
        min (getPitchFactor pow sound.rootNote midiNoteNumber) (MAX_SAMPLER_PITCH : ℚ) := by
    intro v note s
    exact ⟨rfl, jmin_eq_min _ _⟩
  refine ⟨rfl, hstart, ?_⟩
  intro v hv
  induction hv with
  | startNote v note s =>
    rw [(hstart v note s).2]
    exact ⟨le_min (hpow _) h8, min_le_right _ _⟩
  | renderNextBlock v out st n _ ih =>
    rcases render_uptimeDelta v out st n with e | e <;> rw [e]
    · exact ih
    · exact ⟨le_refl _, h8⟩
  | resetVoice v _ _ => exact ⟨le_refl _, h8⟩
  | stopNote v _ ih => exact ih
  | setPitchValues v p _ ih => exact ih
  | setLoaderBufferSize v b _ ih => exact ih
  | prepareToPlay v sr spb _ ih =>
    unfold StreamingSamplerVoice.prepareToPlay
    split_ifs
    · exact ih
    · exact ih
  | refill v u _ ih => exact ih

/-- C9, with the integer-exponent power `b ^ ⌊e⌋` standing in for `pow`. -/
theorem pitch_clamp_witness :
    (MAX_SAMPLER_PITCH = 8) ∧
    (∀ (v : StreamingSamplerVoice) (midiNoteNumber : ℤ) (sound : StreamingSamplerSound),
      (v.startNote (fun b e => b ^ ⌊e⌋) midiNoteNumber sound).voiceUptime = 0 ∧
      (v.startNote (fun b e => b ^ ⌊e⌋) midiNoteNumber sound).uptimeDelta =
        min (getPitchFactor (fun b e : ℚ => b ^ ⌊e⌋) sound.rootNote midiNoteNumber)
          (MAX_SAMPLER_PITCH : ℚ)) ∧
    (∀ v : StreamingSamplerVoice, v.ReachableAfterStart (fun b e => b ^ ⌊e⌋) →
      0 ≤ v.uptimeDelta ∧ v.uptimeDelta ≤ (MAX_SAMPLER_PITCH : ℚ)) :=
  pitch_clamp (fun b e => b ^ ⌊e⌋) (fun x => zpow_nonneg (by norm_num) _)

/-! ## C10: render frame -/

/-- C10. `renderNextBlock` leaves every output frame outside
`[startSample, startSample + numSamples)` unchanged on both channels (and does not resize
the buffer); when a sound is bound and the asset has enough frames, each output frame
`startSample + i` with `i < numSamples` is its old value plus
`in[index] * (1 - alpha) + in[index + 1] * alpha`, where `in` is the channel of the scratch
window the loader filled, `x` is the cursor of that frame minus `pos`, `index = (int) x` and
`alpha = x - index`. -/
theorem renderNextBlock_frame (v : StreamingSamplerVoice) (outputBuffer : AudioSampleBuffer)
    (startSample numSamples : ℕ) :
    (v.renderNextBlock outputBuffer startSample numSamples).2.numSamples
      = outputBuffer.numSamples ∧
    (∀ j, j < startSample ∨ startSample + numSamples ≤ j →
      (v.renderNextBlock outputBuffer startSample numSamples).2.ch0 j = outputBuffer.ch0 j ∧
      (v.renderNextBlock outputBuffer startSample numSamples).2.ch1 j = outputBuffer.ch1 j) ∧
    (∀ sound, v.loader.sound = some sound →
      sound.hasEnoughSamplesForBlock (v.pos + v.samplesToCopy startSample numSamples) = true →
      ∀ i, i < numSamples →
      ∀ window, window = (v.loader.fillSampleBlockBuffer v.samplesForThisBlock
          (v.samplesToCopy startSample numSamples).toNat
          (truncToInt (v.numSamplesUsed startSample numSamples)).toNat v.pos.toNat).2 →
      ∀ x : ℚ, x = cursorAt v.pitchData v.uptimeDelta v.voiceUptime startSample i - v.pos →
        (v.renderNextBlock outputBuffer startSample numSamples).2.ch0 (startSample + i) =
          outputBuffer.ch0 (startSample + i) +
            (window.ch0 (truncToInt x).toNat * (1 - (x - truncToInt x)) +
              window.ch0 (truncToInt x + 1).toNat * (x - truncToInt x)) ∧
        (v.renderNextBlock outputBuffer startSample numSamples).2.ch1 (startSample + i) =
          outputBuffer.ch1 (startSample + i) +
            (window.ch1 (truncToInt x).toNat * (1 - (x - truncToInt x)) +
              window.ch1 (truncToInt x + 1).toNat * (x - truncToInt x))) := by
  cases hs : v.loader.sound with
  | none =>
    rw [render_unbound v _ _ _ hs]
    exact ⟨rfl, fun _ _ => ⟨rfl, rfl⟩, fun s h => by cases h⟩
  | some s =>
    cases he : s.hasEnoughSamplesForBlock (v.pos + v.samplesToCopy startSample numSamples) with
    | false =>
      rw [render_endOfStream v _ _ _ s hs he]
      refine ⟨rfl, fun _ _ => ⟨rfl, rfl⟩, fun s2 h h2 => ?_⟩
      cases h
      rw [he] at h2
      cases h2
    | true =>
      rw [render_playing v _ _ _ s hs he]
      dsimp only
      obtain ⟨_, h2, h3⟩ := renderLoop_spec v.pos v.pitchData v.uptimeDelta
        (v.loader.fillSampleBlockBuffer v.samplesForThisBlock
          (v.samplesToCopy startSample numSamples).toNat
          (truncToInt (v.numSamplesUsed startSample numSamples)).toNat v.pos.toNat).2.ch0
        (v.loader.fillSampleBlockBuffer v.samplesForThisBlock
          (v.samplesToCopy startSample numSamples).toNat
          (truncToInt (v.numSamplesUsed startSample numSamples)).toNat v.pos.toNat).2.ch1
        numSamples v.voiceUptime startSample outputBuffer.ch0 outputBuffer.ch1
      refine ⟨rfl, fun j hj => ?_, fun s2 _ _ i hi window hw x hx => ?_⟩
      · rw [h2, h3, if_neg (by omega), if_neg (by omega)]
        exact ⟨rfl, rfl⟩
      · rw [h2, h3, if_pos (by omega), if_pos (by omega)]
        have e : startSample + i - startSample = i := by omega
        rw [e, hw, hx]
        exact ⟨rfl, rfl⟩


theorem cursorAt_none (d vu : ℚ) (st i : ℕ) : cursorAt none d vu st i = vu + i * d := by
  induction i with
  | zero => simp [cursorAt]
  | succ i ih =>
    rw [cursorAt, ih]
    simp only [pitchFactorAt]
    push_cast
    ring

theorem interpolate_int (N i : ℕ) (inL : ℕ → ℚ) :
    interpolate (N : ℤ) inL ((N : ℚ) + i * 1) = inL i := by
  unfold interpolate
  have e : ((N : ℚ) + (i : ℚ) * 1) - ((N : ℤ) : ℚ) = ((i : ℕ) : ℚ) := by
    push_cast; ring
  simp only [e, truncToInt_natCast]
  simp

theorem pos_natCast (v : StreamingSamplerVoice) (N : ℕ) (hu : v.voiceUptime = (N : ℚ)) :
    v.pos = (N : ℤ) := by
  unfold StreamingSamplerVoice.pos
  rw [hu, truncToInt_natCast]

theorem numSamplesUsed_root (v : StreamingSamplerVoice) (N : ℕ) (d : ℕ)
    (hp : v.pitchData = none) (hd : v.uptimeDelta = (d : ℚ)) (hu : v.voiceUptime = (N : ℚ))
    (st n : ℕ) : v.numSamplesUsed st n = ((n * d : ℕ) : ℚ) := by
  unfold StreamingSamplerVoice.numSamplesUsed
  rw [numSamplesUsedLoop_none v hp, pos_natCast v N hu, hu, hd]
  push_cast
  ring

theorem samplesToCopy_root (v : StreamingSamplerVoice) (N : ℕ) (d : ℕ)
    (hp : v.pitchData = none) (hd : v.uptimeDelta = (d : ℚ)) (hu : v.voiceUptime = (N : ℚ))
    (st n : ℕ) : v.samplesToCopy st n = ((n * d + 2 : ℕ) : ℤ) := by
  unfold StreamingSamplerVoice.samplesToCopy
  rw [numSamplesUsed_root v N d hp hd hu, truncToInt_natCast]
  push_cast
  ring

/-- One block of a voice that plays at root pitch. -/
theorem render_root_block (s : StreamingSamplerSound) (B : ℕ) (v : StreamingSamplerVoice)
    (out : AudioSampleBuffer) (N st n : ℕ) (u : ℚ) (hB : 0 < B) (hs : s.WellFormed)
    (inv : RootPitchInv s B v N) (hn : n + 2 ≤ B)
    (hwin : N + (n + 2) ≤ streamableFrames B s.memoryReader.lengthInSamples)
    (hT : N + (n + 2) < s.memoryReader.lengthInSamples) :
    RootPitchInv s B
      { (v.renderNextBlock out st n).1 with
        loader := (v.renderNextBlock out st n).1.loader.finishPendingJob u } (N + n) ∧
    (∀ j, (v.renderNextBlock out st n).2.ch0 j =
      if st ≤ j ∧ j < st + n then out.ch0 j + s.memoryReader.left (N + (j - st))
      else out.ch0 j) ∧
    (∀ j, (v.renderNextBlock out st n).2.ch1 j =
      if st ≤ j ∧ j < st + n then out.ch1 j + s.memoryReader.right (N + (j - st))
      else out.ch1 j) ∧
    (v.renderNextBlock out st n).1.isPlaying = v.isPlaying ∧
    ((v.renderNextBlock out st n).1.loader.finishPendingJob u).trace.count
        (LoaderEvent.swapBuffers false) =
      v.loader.trace.count (LoaderEvent.swapBuffers false) := by
  obtain ⟨hp, hd, hu, hl⟩ := inv
  have hd1 : v.uptimeDelta = ((1 : ℕ) : ℚ) := by rw [hd]; simp
  have hpos := pos_natCast v N hu
  have hused := numSamplesUsed_root v N 1 hp hd1 hu st n
  have hcopy := samplesToCopy_root v N 1 hp hd1 hu st n
  rw [Nat.mul_one] at hused hcopy
  have he : s.hasEnoughSamplesForBlock (v.pos + v.samplesToCopy st n) = true := by
    unfold StreamingSamplerSound.hasEnoughSamplesForBlock
    rw [decide_eq_true_eq, hpos, hcopy]
    exact_mod_cast hT
  rw [render_playing v out st n s hl.sound he]
  dsimp only
  rw [hpos, hcopy, hused, truncToInt_natCast]
  simp only [Int.toNat_ofNat]
  obtain ⟨g1, g2, g3⟩ := renderLoop_spec (N : ℤ) v.pitchData v.uptimeDelta
    (v.loader.fillSampleBlockBuffer v.samplesForThisBlock (n + 2) n N).2.ch0
    (v.loader.fillSampleBlockBuffer v.samplesForThisBlock (n + 2) n N).2.ch1
    n v.voiceUptime st out.ch0 out.ch1
  obtain ⟨f1, f2⟩ := fill_stream_inv s B v.loader v.samplesForThisBlock (n + 2) n N u hB hs hl
    (by omega) hn
  have fc := fill_stream_content s B v.loader v.samplesForThisBlock (n + 2) n N hB hl hn hwin
  refine ⟨⟨hp, hd, ?_, f1⟩, ?_, ?_, trivial, f2⟩
  · show (renderLoop _ _ _ _ _ _ _ _ _ _).1 = _
    rw [g1, hp, cursorAt_none, hu, hd]
    push_cast
    ring
  · intro j
    rw [g2]
    by_cases hj : st ≤ j ∧ j < st + n
    · rw [if_pos hj, if_pos hj, hp, cursorAt_none, hu, hd, interpolate_int,
        (fc (j - st) (by omega)).1]
    · rw [if_neg hj, if_neg hj]
  · intro j
    rw [g3]
    by_cases hj : st ≤ j ∧ j < st + n
    · rw [if_pos hj, if_pos hj, hp, cursorAt_none, hu, hd, interpolate_int,
        (fc (j - st) (by omega)).2]
    · rw [if_neg hj, if_neg hj]


theorem startNote_root (pow : ℚ → ℚ → ℚ) (hpow : pow 2 0 = 1) (v : StreamingSamplerVoice)
    (s : StreamingSamplerSound) : (v.startNote pow s.rootNote s).uptimeDelta = 1 := by
  simp [StreamingSamplerVoice.startNote, getPitchFactor, hpow, jmin, MAX_SAMPLER_PITCH]

theorem startNote_rootPitchInv (pow : ℚ → ℚ → ℚ) (hpow : pow 2 0 = 1)
    (v : StreamingSamplerVoice) (s : StreamingSamplerSound) (B : ℕ) (u : ℚ) (hB : 0 < B)
    (hs : s.WellFormed) (hP : (B : ℤ) ≤ s.preloadSize) (hsize : v.loader.bufferSize = B)
    (hidle : v.loader.writeBufferIsBeingFilled = false) (hjob : v.loader.jobsInPool = 0)
    (hcurve : v.pitchData = none) :
    RootPitchInv s B
      { v.startNote pow s.rootNote s with
        loader := (v.startNote pow s.rootNote s).loader.finishPendingJob u } 0 ∧
    ((v.startNote pow s.rootNote s).loader.finishPendingJob u).trace.count
        (LoaderEvent.swapBuffers false) =
      v.loader.trace.count (LoaderEvent.swapBuffers false) := by
  obtain ⟨h1, h2⟩ := startNote_stream_inv s B v.loader u hB hs hP hsize hidle hjob
  refine ⟨⟨hcurve, startNote_root pow hpow v s, ?_, h1⟩, h2⟩
  show (0 : ℚ) = ((0 : ℕ) : ℚ)
  simp

/-- Consecutive blocks of a voice that plays at root pitch. -/
theorem playBlocks_root (s : StreamingSamplerSound) (B : ℕ) (u : ℚ) (hB : 0 < B)
    (hs : s.WellFormed) (blocks : List ℕ) :
    ∀ (v : StreamingSamplerVoice) (out : AudioSampleBuffer) (N st : ℕ),
      RootPitchInv s B v N → (∀ n ∈ blocks, n + 2 ≤ B) →
      N + (blocks.sum + 2) ≤ streamableFrames B s.memoryReader.lengthInSamples →
      N + (blocks.sum + 2) < s.memoryReader.lengthInSamples →
      RootPitchInv s B (StreamingSamplerVoice.playBlocks u v out st blocks).1
        (N + blocks.sum) ∧
      (∀ j, (StreamingSamplerVoice.playBlocks u v out st blocks).2.ch0 j =
        if st ≤ j ∧ j < st + blocks.sum then out.ch0 j + s.memoryReader.left (N + (j - st))
        else out.ch0 j) ∧
      (∀ j, (StreamingSamplerVoice.playBlocks u v out st blocks).2.ch1 j =
        if st ≤ j ∧ j < st + blocks.sum then out.ch1 j + s.memoryReader.right (N + (j - st))
        else out.ch1 j) ∧
      (StreamingSamplerVoice.playBlocks u v out st blocks).1.isPlaying = v.isPlaying ∧
      (StreamingSamplerVoice.playBlocks u v out st blocks).1.loader.trace.count
          (LoaderEvent.swapBuffers false) =
        v.loader.trace.count (LoaderEvent.swapBuffers false) := by
  induction blocks with
  | nil =>
    intro v out N st inv _ _ _
    refine ⟨inv, fun j => ?_, fun j => ?_, rfl, rfl⟩ <;>
    · rw [if_neg (by simp)]; rfl
  | cons n rest ih =>
    intro v out N st inv hb hwin hT
    simp only [List.sum_cons] at hwin hT ⊢
    obtain ⟨r1, r2, r3, r4, r5⟩ := render_root_block s B v out N st n u hB hs inv
      (hb n (List.mem_cons_self _ _)) (by omega) (by omega)
    obtain ⟨p1, p2, p3, p4, p5⟩ := ih
      { (v.renderNextBlock out st n).1 with
        loader := (v.renderNextBlock out st n).1.loader.finishPendingJob u }
      (v.renderNextBlock out st n).2 (N + n) (st + n) r1
      (fun m hm => hb m (List.mem_cons_of_mem _ hm)) (by omega) (by omega)
    unfold StreamingSamplerVoice.playBlocks
    dsimp only
    refine ⟨?_, fun j => ?_, fun j => ?_, ?_, ?_⟩
    · rw [← Nat.add_assoc]; exact p1
    · rw [p2, r2]
      by_cases h1 : st ≤ j ∧ j < st + n
      · rw [if_neg (by omega), if_pos h1, if_pos (by omega)]
      · rw [if_neg h1]
        by_cases h2 : st + n ≤ j ∧ j < st + n + rest.sum
        · rw [if_pos h2, if_pos (by omega)]
          have e : N + n + (j - (st + n)) = N + (j - st) := by omega
          rw [e]
        · rw [if_neg h2, if_neg (by omega)]
    · rw [p3, r3]
      by_cases h1 : st ≤ j ∧ j < st + n
      · rw [if_neg (by omega), if_pos h1, if_pos (by omega)]
      · rw [if_neg h1]
        by_cases h2 : st + n ≤ j ∧ j < st + n + rest.sum
        · rw [if_pos h2, if_pos (by omega)]
          have e : N + n + (j - (st + n)) = N + (j - st) := by omega
          rw [e]
        · rw [if_neg h2, if_neg (by omega)]
    · rw [p4]; exact r4
    · rw [p5]; exact r5

/-! ## C2: the root-pitch scenario -/

/-- C2. For a well-formed asset of 1,000,000 frames with preload length 11,000 and a voice
whose loader has streaming buffers of 11,000 frames and no refill pending, started at the
root note (`pow (2, 0) = 1`, so `uptimeDelta = 1`) with no pitch curve and rendered for
100,000 frames in consecutive blocks of 512 frames (195 blocks and a last one of 160) into
a zeroed output, every requested refill completing before the next call: output frame `i`
equals source frame `i` on both channels for every `i < 100000`, `swapBuffers` never
returns `false`, and the note is never stopped (the sound stays bound, `isPlaying` and
`uptimeDelta = 1` are untouched and `voiceUptime` ends at 100000). -/
theorem root_pitch_scenario (s : StreamingSamplerSound) (v : StreamingSamplerVoice)
    (pow : ℚ → ℚ → ℚ) (outputBuffer : AudioSampleBuffer) (diskUsageThisTime : ℚ)
    (hs : s.WellFormed) (hT : s.memoryReader.lengthInSamples = 1000000)
    (hP : s.preloadSize = 11000) (hB : v.loader.bufferSize = 11000)
    (hidle : v.loader.writeBufferIsBeingFilled = false) (hjob : v.loader.jobsInPool = 0)
    (hcurve : v.pitchData = none) (hpow : pow 2 0 = 1)
    (hout : ∀ j, outputBuffer.ch0 j = 0 ∧ outputBuffer.ch1 j = 0) :
    ∀ r, r = StreamingSamplerVoice.playBlocks diskUsageThisTime
        { v.startNote pow s.rootNote s with
          loader := (v.startNote pow s.rootNote s).loader.finishPendingJob diskUsageThisTime }
        outputBuffer 0 (List.replicate 195 512 ++ [160]) →
      (∀ i, i < 100000 →
        r.2.ch0 i = s.memoryReader.left i ∧ r.2.ch1 i = s.memoryReader.right i) ∧
      r.1.loader.trace.count (LoaderEvent.swapBuffers false) =
        v.loader.trace.count (LoaderEvent.swapBuffers false) ∧
      r.1.loader.sound = some s ∧ r.1.isPlaying = v.isPlaying ∧ r.1.uptimeDelta = 1 ∧
      r.1.voiceUptime = 100000 := by
  intro r hr
  have hsum : (List.replicate 195 512 ++ [160]).sum = 100000 := by
    rw [List.sum_append, List.sum_replicate, List.sum_singleton, smul_eq_mul]
  have hblocks : ∀ n ∈ List.replicate 195 512 ++ [160], n + 2 ≤ 11000 := by
    intro n hn
    simp only [List.mem_append, List.mem_replicate, List.mem_singleton] at hn
    rcases hn with ⟨_, h⟩ | h <;> omega
  obtain ⟨i1, i2⟩ := startNote_rootPitchInv pow hpow v s 11000 diskUsageThisTime (by norm_num)
    hs (by rw [hP]; norm_num) hB hidle hjob hcurve
  obtain ⟨p1, p2, p3, p4, p5⟩ := playBlocks_root s 11000 diskUsageThisTime (by norm_num) hs
    (List.replicate 195 512 ++ [160]) _ outputBuffer 0 0 i1 hblocks
    (by rw [hsum, hT]; norm_num [streamableFrames])
    (by rw [hsum, hT]; norm_num)
  rw [← hr, hsum] at p1 p2 p3
  rw [← hr] at p4 p5
  refine ⟨fun i hi => ?_, ?_, p1.loader.sound, ?_, p1.delta, ?_⟩
  · rw [p2, p3, if_pos (by omega), if_pos (by omega), (hout i).1, (hout i).2]
    simp
  · rw [p5]; exact i2
  · rw [p4]; rfl
  · rw [p1.uptime]; norm_num


/-- C2, at a concrete input: the 1,000,000-frame ramp and a fresh voice. -/
theorem root_pitch_scenario_witness :
    ((rampSound 1000000).memoryReader.lengthInSamples = 1000000 ∧
      (rampSound 1000000).preloadSize = 11000 ∧ freshVoice.loader.bufferSize = 11000 ∧
      intPow 2 0 = 1) ∧
    ∀ r, r = StreamingSamplerVoice.playBlocks 0
        { freshVoice.startNote intPow (rampSound 1000000).rootNote (rampSound 1000000) with
          loader := (freshVoice.startNote intPow (rampSound 1000000).rootNote
            (rampSound 1000000)).loader.finishPendingJob 0 }
        (AudioSampleBuffer.alloc 100000) 0 (List.replicate 195 512 ++ [160]) →
      (∀ i, i < 100000 →
        r.2.ch0 i = (rampSound 1000000).memoryReader.left i ∧
        r.2.ch1 i = (rampSound 1000000).memoryReader.right i) ∧
      r.1.loader.trace.count (LoaderEvent.swapBuffers false) =
        freshVoice.loader.trace.count (LoaderEvent.swapBuffers false) ∧
      r.1.loader.sound = some (rampSound 1000000) ∧ r.1.isPlaying = freshVoice.isPlaying ∧
      r.1.uptimeDelta = 1 ∧ r.1.voiceUptime = 100000 :=
  ⟨⟨rampSound_length _, by decide, rfl, by simp [intPow]⟩,
    root_pitch_scenario (rampSound 1000000) freshVoice intPow
      (AudioSampleBuffer.alloc 100000) 0
      (rampSound_wellFormed _) (rampSound_length _) (by decide) rfl rfl rfl rfl
      (by simp [intPow]) (fun _ => ⟨rfl, rfl⟩)⟩

/-! ## C3: end of stream -/

theorem cursorAt_zero_delta (pd : Option (ℕ → ℚ)) (vu : ℚ) (st i : ℕ) :
    cursorAt pd 0 vu st i = vu := by
  induction i with
  | zero => rfl
  | succ i ih => rw [cursorAt, ih]; simp

/-- A voice left by `resetVoice` with its sound still bound adds frame 0 of the read buffer
to every output frame of the block. -/
theorem render_after_resetVoice (v : StreamingSamplerVoice) (s : StreamingSamplerSound)
    (out : AudioSampleBuffer) (st n : ℕ) (hp : v.pitchData = none)
    (hu : v.voiceUptime = 0) (hd : v.uptimeDelta = 0) (hs : v.loader.sound = some s)
    (hT : 2 < s.memoryReader.lengthInSamples) (hB : 2 < v.loader.bufferSize) :
    ∀ j, (v.renderNextBlock out st n).2.ch0 j =
      if st ≤ j ∧ j < st + n then out.ch0 j + v.loader.readBufferContent.ch0 0
      else out.ch0 j := by
  have hu0 : v.voiceUptime = ((0 : ℕ) : ℚ) := by rw [hu]; simp
  have hd0 : v.uptimeDelta = ((0 : ℕ) : ℚ) := by rw [hd]; simp
  have hpos := pos_natCast v 0 hu0
  have hused := numSamplesUsed_root v 0 0 hp hd0 hu0 st n
  have hcopy := samplesToCopy_root v 0 0 hp hd0 hu0 st n
  rw [Nat.mul_zero] at hused hcopy
  have he : s.hasEnoughSamplesForBlock (v.pos + v.samplesToCopy st n) = true := by
    unfold StreamingSamplerSound.hasEnoughSamplesForBlock
    rw [decide_eq_true_eq, hpos, hcopy]
    exact_mod_cast (by omega : 0 + (0 + 2) < s.memoryReader.lengthInSamples)
  intro j
  rw [render_playing v out st n s hs he]
  dsimp only
  rw [hpos, hcopy, hused, truncToInt_natCast]
  simp only [Int.toNat_ofNat]
  rw [(renderLoop_spec _ _ _ _ _ _ _ _ _ _).2.1 j, hd, cursorAt_zero_delta, hu]
  have e := interpolate_int 0 0
    (v.loader.fillSampleBlockBuffer v.samplesForThisBlock (0 + 2) 0 0).2.ch0
  simp only [Nat.cast_zero, zero_mul, add_zero] at e ⊢
  rw [e, fill_dest_ch0, if_pos (by omega : 0 < 0 + 2), Nat.zero_mod,
    if_pos (by omega : 0 + 0 < v.loader.bufferSize)]


theorem rampVoice_sound : rampVoice.loader.sound = some (rampSound 100) := rfl

theorem rampVoice_delta : rampVoice.uptimeDelta = 1 :=
  startNote_root intPow (by simp [intPow])
    ((StreamingSamplerVoice.prepareToPlay
      { pitchData := none, voiceUptime := 0, uptimeDelta := 0,
        samplesForThisBlock := AudioSampleBuffer.alloc 0, loader := SampleLoader.create,
        isPlaying := true } 44100 128).setLoaderBufferSize 64) (rampSound 100)

theorem rampVoice_read0 : rampVoice.resetVoice.loader.readBufferContent.ch0 0 = 1 := by
  decide

/-- C3 fails in the code after the stopping call.  `rampVoice` plays the 100-frame ramp from
frame 0.  A block of 100 frames needs 102 source frames, so `renderNextBlock` calls
`resetVoice` and leaves the output unchanged, as the claim says; but `resetVoice` does not
reset the loader, so the sound stays bound, and the next `renderNextBlock` call on the
stopped voice (no `startNote` in between) adds frame 0 of the read buffer, here 1, to the
output frames of its block instead of leaving them unchanged. -/
theorem endOfStream_then_not_silent :
    rampVoice.renderNextBlock (AudioSampleBuffer.alloc 200) 0 100 =
      (rampVoice.resetVoice, AudioSampleBuffer.alloc 200) ∧
    rampVoice.resetVoice.isPlaying = false ∧
    rampVoice.resetVoice.loader.sound = some (rampSound 100) ∧
    (AudioSampleBuffer.alloc 200).ch0 0 = 0 ∧
    ((rampVoice.renderNextBlock (AudioSampleBuffer.alloc 200) 0 100).1.renderNextBlock
      (rampVoice.renderNextBlock (AudioSampleBuffer.alloc 200) 0 100).2 0 4).2.ch0 0 = 1 := by
  have hd1 : rampVoice.uptimeDelta = ((1 : ℕ) : ℚ) := by rw [rampVoice_delta]; simp
  have hu0 : rampVoice.voiceUptime = ((0 : ℕ) : ℚ) := by
    show (0 : ℚ) = ((0 : ℕ) : ℚ)
    simp
  have he : (rampSound 100).hasEnoughSamplesForBlock
      (rampVoice.pos + rampVoice.samplesToCopy 0 100) = false := by
    unfold StreamingSamplerSound.hasEnoughSamplesForBlock
    rw [decide_eq_false_iff_not, pos_natCast _ 0 hu0,
      samplesToCopy_root _ 0 1 rfl hd1 hu0, rampSound_length]
    norm_num
  have h1 := render_endOfStream rampVoice (AudioSampleBuffer.alloc 200) 0 100 (rampSound 100)
    rampVoice_sound he
  refine ⟨h1, rfl, rfl, rfl, ?_⟩
  rw [h1]
  dsimp only
  rw [render_after_resetVoice rampVoice.resetVoice (rampSound 100) _ 0 4 rfl rfl rfl
    rampVoice_sound (by rw [rampSound_length]; norm_num) (by decide) 0,
    if_pos (by omega), rampVoice_read0]
  show (0 : ℚ) + 1 = 1
  norm_num


/-! ## C11: idempotence of `reset` and `stopNote` -/

/-- C11. For every loader state, `reset` followed by `reset` yields the same state as one
`reset`, which clears the bound sound, sets the disk usage to 0 and leaves every other
member as it was; for every voice state, `stopNote` followed by `stopNote` yields the same
voice state as one `stopNote`, which clears the playing flag, resets the loader and leaves
`voiceUptime` and `uptimeDelta` as they were. -/
theorem reset_stopNote_idempotent (l : SampleLoader) (v : StreamingSamplerVoice) :
    l.reset.reset = l.reset ∧
    l.reset = { l with sound := none, diskUsage := 0 } ∧
    v.stopNote.stopNote = v.stopNote ∧
    v.stopNote = { v with isPlaying := false, loader := v.loader.reset } :=
  ⟨rfl, rfl, rfl, rfl⟩

/-! ## C12: `setPreloadSize` on an allocation failure -/

/-- C12 fails in the code.  The sound built from the 1,000,000-frame ramp has preload size
11000.  `setPreloadSize (-1)` (`loadEntireSample`) with an allocator that refuses more than
500,000 frames throws the out-of-memory `LoadingError`, yet the recorded preload size is
now 1,000,000, not 11000 as before the call, while the preload buffer still is the old
one of 11000 frames. -/
theorem setPreloadSize_failure_changes_size :
    (rampSound 1000000).preloadSize = 11000 ∧
    ((rampSound 1000000).setPreloadSize (fun n => decide (n ≤ 500000)) (-1)).2 =
      some LoadingError.outOfMemory ∧
    ((rampSound 1000000).setPreloadSize (fun n => decide (n ≤ 500000)) (-1)).1.preloadSize =
      1000000 ∧
    ((rampSound 1000000).setPreloadSize (fun n => decide (n ≤ 500000)) (-1)).1.preloadBuffer.numSamples =
      11000 := by
  refine ⟨by decide, by decide, by decide, by decide⟩


/-! ## C13: swap rule -/

theorem swapBuffers_position (l : SampleLoader) :
    l.swapBuffers.1.positionInSampleFile = l.positionInSampleFile ∧
    l.swapBuffers.1.bufferSize = l.bufferSize := by
  unfold SampleLoader.swapBuffers
  dsimp only
  split <;> exact ⟨rfl, rfl⟩

theorem runJob_other_buffer (l : SampleLoader) (u : ℚ) (b : StreamBuffer)
    (hb : b ≠ l.writeBuffer) : (l.runJob u).streamBuffer b = l.streamBuffer b := by
  simp only [SampleLoader.runJob, SampleLoader.fillInactiveBuffer]
  split
  · split_ifs
    · cases hw : l.writeBuffer <;> cases b <;> simp_all [SampleLoader.setStreamBuffer,
        SampleLoader.streamBuffer]
    · rfl
  · rfl

/-- C13. For every `fillSampleBlockBuffer` call with
`numSamplesToConsume ≤ numSamplesToCopy` on a loader whose roles are bound as in every
reachable state, with `readIndex = sampleIndex % bufferSize`: `swapBuffers` rebinds the
roles (the read role moves to the former write buffer, the write role to the other internal
buffer) if and only if `readIndex + numSamplesToConsume ≥ bufferSize`; when it does and no
refill is in flight, `positionInSampleFile` grows by exactly `bufferSize` and exactly one
refill is requested, whose job writes to the newly assigned write buffer only; when it does
not, the roles, `positionInSampleFile`, the in-flight flag and the pool are unchanged. -/
theorem swap_rule (l : SampleLoader) (dest : AudioSampleBuffer)
    (numSamplesToCopy numSamplesToConsume sampleIndex : ℕ) (hroles : l.RolesOk)
    (hcc : numSamplesToConsume ≤ numSamplesToCopy) :
    (sampleIndex % l.bufferSize + numSamplesToConsume ≥ l.bufferSize →
      (l.fillSampleBlockBuffer dest numSamplesToCopy numSamplesToConsume sampleIndex).1.readBuffer
        = ReadPointer.own l.writeBuffer ∧
      (l.fillSampleBlockBuffer dest numSamplesToCopy numSamplesToConsume sampleIndex).1.writeBuffer
        ≠ l.writeBuffer ∧
      (l.fillSampleBlockBuffer dest numSamplesToCopy numSamplesToConsume sampleIndex).1.roleHistory
        = LoaderEvent.swapBuffers (l.writeBufferIsBeingFilled == false) :: l.roleHistory) ∧
    (¬ sampleIndex % l.bufferSize + numSamplesToConsume ≥ l.bufferSize →
      (l.fillSampleBlockBuffer dest numSamplesToCopy numSamplesToConsume sampleIndex).1.readBuffer
        = l.readBuffer ∧
      (l.fillSampleBlockBuffer dest numSamplesToCopy numSamplesToConsume sampleIndex).1.writeBuffer
        = l.writeBuffer ∧
      (l.fillSampleBlockBuffer dest numSamplesToCopy numSamplesToConsume sampleIndex).1.roleHistory
        = l.roleHistory ∧
      (l.fillSampleBlockBuffer dest numSamplesToCopy numSamplesToConsume
        sampleIndex).1.positionInSampleFile = l.positionInSampleFile ∧
      (l.fillSampleBlockBuffer dest numSamplesToCopy numSamplesToConsume
        sampleIndex).1.writeBufferIsBeingFilled = l.writeBufferIsBeingFilled ∧
      (l.fillSampleBlockBuffer dest numSamplesToCopy numSamplesToConsume
        sampleIndex).1.jobsInPool = l.jobsInPool) ∧
    (sampleIndex % l.bufferSize + numSamplesToConsume ≥ l.bufferSize →
      l.writeBufferIsBeingFilled = false →
      (l.fillSampleBlockBuffer dest numSamplesToCopy numSamplesToConsume
        sampleIndex).1.positionInSampleFile = l.positionInSampleFile + l.bufferSize ∧
      (l.fillSampleBlockBuffer dest numSamplesToCopy numSamplesToConsume
        sampleIndex).1.writeBufferIsBeingFilled = true ∧
      (l.fillSampleBlockBuffer dest numSamplesToCopy numSamplesToConsume
        sampleIndex).1.jobsInPool = l.jobsInPool + 1 ∧
      (l.fillSampleBlockBuffer dest numSamplesToCopy numSamplesToConsume sampleIndex).1.trace =
        LoaderEvent.requestNewData false :: LoaderEvent.swapBuffers true ::
          LoaderEvent.peekWriteBuffer
            (numSamplesToCopy - (l.bufferSize - sampleIndex % l.bufferSize)) false :: l.trace ∧
      ∀ (diskUsageThisTime : ℚ) (b : StreamBuffer),
        b ≠ (l.fillSampleBlockBuffer dest numSamplesToCopy numSamplesToConsume
          sampleIndex).1.writeBuffer →
        ((l.fillSampleBlockBuffer dest numSamplesToCopy numSamplesToConsume
          sampleIndex).1.runJob diskUsageThisTime).streamBuffer b =
        (l.fillSampleBlockBuffer dest numSamplesToCopy numSamplesToConsume
          sampleIndex).1.streamBuffer b) := by
  refine ⟨fun h2 => ?_, fun h2 => ?_, fun h2 hidle => ?_⟩
  · have h1 : ¬ sampleIndex % l.bufferSize + numSamplesToCopy < l.bufferSize := by omega
    rcases fill_roles l dest numSamplesToCopy numSamplesToConsume sampleIndex with
      ⟨_, _, e3⟩ | ⟨⟨b, e3⟩, e⟩
    · exfalso
      rw [fill_fst_swap _ _ _ _ _ h1 h2] at e3
      dsimp only at e3
      have ht := swapBuffers_trace ({ l with
        readIndex := sampleIndex % l.bufferSize
        trace := LoaderEvent.peekWriteBuffer
          (numSamplesToCopy - (l.bufferSize - sampleIndex % l.bufferSize))
          l.writeBufferIsBeingFilled :: l.trace } : SampleLoader)
      have hlen := congrArg List.length e3
      revert hlen
      split_ifs <;>
        simp [SampleLoader.roleHistory, SampleLoader.requestNewData, ht,
          LoaderEvent.bindsRoles]
    · have e4 : (l.fillSampleBlockBuffer dest numSamplesToCopy numSamplesToConsume
          sampleIndex).1.roleHistory =
          LoaderEvent.swapBuffers (l.writeBufferIsBeingFilled == false) :: l.roleHistory := by
        rw [fill_fst_swap _ _ _ _ _ h1 h2]
        dsimp only
        have ht := swapBuffers_trace ({ l with
          readIndex := sampleIndex % l.bufferSize
          trace := LoaderEvent.peekWriteBuffer
            (numSamplesToCopy - (l.bufferSize - sampleIndex % l.bufferSize))
            l.writeBufferIsBeingFilled :: l.trace } : SampleLoader)
        split_ifs <;>
          simp [SampleLoader.roleHistory, SampleLoader.requestNewData, ht,
            LoaderEvent.bindsRoles]
      refine ⟨?_, ?_, e4⟩
      · rcases hroles with ⟨a, c⟩ | ⟨a, c⟩ | ⟨s, a, c⟩ <;>
          rcases e with ⟨e0, e1, e2⟩ | ⟨e0, e1, e2⟩ <;> simp_all
      · rcases hroles with ⟨a, c⟩ | ⟨a, c⟩ | ⟨s, a, c⟩ <;>
          rcases e with ⟨e0, e1, e2⟩ | ⟨e0, e1, e2⟩ <;> simp_all
  · by_cases h1 : sampleIndex % l.bufferSize + numSamplesToCopy < l.bufferSize
    · rw [fill_fst_fits _ _ _ _ _ h1]
      exact ⟨rfl, rfl, rfl, rfl, rfl, rfl⟩
    · rw [fill_fst_stay _ _ _ _ _ h1 h2]
      exact ⟨rfl, rfl, roleHistory_cons_other _ _ _ rfl rfl, rfl, rfl, rfl⟩
  · have h1 : ¬ sampleIndex % l.bufferSize + numSamplesToCopy < l.bufferSize := by omega
    have hsw : ∀ l2 : SampleLoader, l2.writeBufferIsBeingFilled = false →
        l2.swapBuffers.2 = true := by
      intro l2 h
      rw [swapBuffers_snd, h]
      rfl
    rw [fill_fst_swap _ _ _ _ _ h1 h2]
    dsimp only
    generalize hl2 : ({ l with
      readIndex := sampleIndex % l.bufferSize
      trace := LoaderEvent.peekWriteBuffer
        (numSamplesToCopy - (l.bufferSize - sampleIndex % l.bufferSize))
        l.writeBufferIsBeingFilled :: l.trace } : SampleLoader) = l2
    have g1 : l2.writeBufferIsBeingFilled = false := by rw [← hl2]; exact hidle
    have g2 : l2.positionInSampleFile = l.positionInSampleFile := by rw [← hl2]
    have g3 : l2.bufferSize = l.bufferSize := by rw [← hl2]
    have g4 : l2.jobsInPool = l.jobsInPool := by rw [← hl2]
    have g5 : l2.trace = LoaderEvent.peekWriteBuffer
        (numSamplesToCopy - (l.bufferSize - sampleIndex % l.bufferSize)) false :: l.trace := by
      rw [← hl2, hidle]
    rw [if_pos (hsw l2 g1)]
    refine ⟨?_, rfl, ?_, ?_, fun u b hb => runJob_other_buffer _ u b hb⟩
    · simp only [SampleLoader.requestNewData]
      rw [(swapBuffers_position _).1, (swapBuffers_position _).2, g2, g3]
    · simp only [SampleLoader.requestNewData]
      rw [swapBuffers_jobs, g4]
    · simp only [SampleLoader.requestNewData]
      rw [swapBuffers_flag, swapBuffers_trace, g1, g5]
      rfl


/-- C13, at a concrete input: the first swap of a note on `starvedLoader` once its refill
has completed. -/
theorem swap_rule_witness :
    ((starvedLoader.runJob 0).RolesOk ∧ 8 ≤ 10 ∧
      60 % (starvedLoader.runJob 0).bufferSize + 8 ≥ (starvedLoader.runJob 0).bufferSize ∧
      (starvedLoader.runJob 0).writeBufferIsBeingFilled = false) ∧
    ((starvedLoader.runJob 0).fillSampleBlockBuffer (AudioSampleBuffer.alloc 16) 10 8
        60).1.positionInSampleFile =
      (starvedLoader.runJob 0).positionInSampleFile + (starvedLoader.runJob 0).bufferSize :=
  ⟨⟨Or.inr (Or.inr ⟨_, rfl, rfl⟩), by decide, by decide, rfl⟩,
    ((swap_rule (starvedLoader.runJob 0) (AudioSampleBuffer.alloc 16) 10 8 60
      (Or.inr (Or.inr ⟨_, rfl, rfl⟩)) (by decide)).2.2 (by decide) rfl).1⟩

/-! ## C15: interpolation lookahead -/

theorem truncToInt_of_nonneg (x : ℚ) (hx : 0 ≤ x) : truncToInt x = ⌊x⌋ := by
  unfold truncToInt
  rw [if_pos hx]

/-- C15. For every `renderNextBlock` call without a pitch curve, with
`0 ≤ uptimeDelta ≤ MAX_SAMPLER_PITCH` and `voiceUptime ≥ 0`:
`samplesToCopy = ⌊frac (voiceUptime) + numSamples * uptimeDelta⌋ + 2`, and the integer
source index of every output frame `i < numSamples` (the `index` of the loop at that
frame's cursor) satisfies `0 ≤ index` and `index + 1 < samplesToCopy`, so both taps
`in[index]` and `in[index + 1]` lie inside the window the loader is asked to fill. -/
theorem interpolation_lookahead (v : StreamingSamplerVoice) (startSample numSamples i : ℕ)
    (hp : v.pitchData = none) (h0 : 0 ≤ v.uptimeDelta)
    (_h8 : v.uptimeDelta ≤ (MAX_SAMPLER_PITCH : ℚ)) (hu : 0 ≤ v.voiceUptime)
    (hi : i < numSamples) :
    v.samplesToCopy startSample numSamples =
      ⌊Int.fract v.voiceUptime + numSamples * v.uptimeDelta⌋ + 2 ∧
    0 ≤ truncToInt (cursorAt v.pitchData v.uptimeDelta v.voiceUptime startSample i - v.pos) ∧
    truncToInt (cursorAt v.pitchData v.uptimeDelta v.voiceUptime startSample i - v.pos) + 1 <
      v.samplesToCopy startSample numSamples ∧
    (truncToInt (cursorAt v.pitchData v.uptimeDelta v.voiceUptime startSample i
        - v.pos)).toNat < (v.samplesToCopy startSample numSamples).toNat ∧
    (truncToInt (cursorAt v.pitchData v.uptimeDelta v.voiceUptime startSample i
        - v.pos) + 1).toNat < (v.samplesToCopy startSample numSamples).toNat := by
  have hpos : v.pos = ⌊v.voiceUptime⌋ := truncToInt_of_nonneg _ hu
  have hfr : v.voiceUptime - ((⌊v.voiceUptime⌋ : ℤ) : ℚ) = Int.fract v.voiceUptime := rfl
  have hf0 : 0 ≤ Int.fract v.voiceUptime := Int.fract_nonneg _
  have hn0 : (0 : ℚ) ≤ (numSamples : ℚ) * v.uptimeDelta :=
    mul_nonneg (Nat.cast_nonneg _) h0
  have hi0 : (0 : ℚ) ≤ (i : ℚ) * v.uptimeDelta := mul_nonneg (Nat.cast_nonneg _) h0
  have hle : (i : ℚ) * v.uptimeDelta ≤ (numSamples : ℚ) * v.uptimeDelta :=
    mul_le_mul_of_nonneg_right (by exact_mod_cast hi.le) h0
  have hcopy : v.samplesToCopy startSample numSamples =
      ⌊Int.fract v.voiceUptime + numSamples * v.uptimeDelta⌋ + 2 := by
    unfold StreamingSamplerVoice.samplesToCopy StreamingSamplerVoice.numSamplesUsed
    rw [numSamplesUsedLoop_none v hp, hpos, hfr, truncToInt_of_nonneg _ (by linarith)]
  have hidx : truncToInt (cursorAt v.pitchData v.uptimeDelta v.voiceUptime startSample i
      - v.pos) = ⌊Int.fract v.voiceUptime + i * v.uptimeDelta⌋ := by
    rw [hp, cursorAt_none, hpos]
    have e : v.voiceUptime + (i : ℚ) * v.uptimeDelta - ((⌊v.voiceUptime⌋ : ℤ) : ℚ) =
        Int.fract v.voiceUptime + i * v.uptimeDelta := by
      rw [← hfr]; ring
    rw [e, truncToInt_of_nonneg _ (by linarith)]
  have hnn : 0 ≤ ⌊Int.fract v.voiceUptime + (i : ℚ) * v.uptimeDelta⌋ :=
    Int.floor_nonneg.mpr (by linarith)
  have hmono : ⌊Int.fract v.voiceUptime + (i : ℚ) * v.uptimeDelta⌋ ≤
      ⌊Int.fract v.voiceUptime + (numSamples : ℚ) * v.uptimeDelta⌋ :=
    Int.floor_le_floor (by linarith)
  rw [hidx, hcopy]
  refine ⟨rfl, hnn, by omega, ?_, ?_⟩
  · omega
  · omega

/-- C15, at a concrete input: frame 3 of a 16-frame block of `rampVoice`. -/
theorem interpolation_lookahead_witness :
    (rampVoice.pitchData = none ∧ 0 ≤ rampVoice.uptimeDelta ∧
      rampVoice.uptimeDelta ≤ (MAX_SAMPLER_PITCH : ℚ) ∧ 0 ≤ rampVoice.voiceUptime ∧ 3 < 16) ∧
    truncToInt (cursorAt rampVoice.pitchData rampVoice.uptimeDelta rampVoice.voiceUptime 0 3
        - rampVoice.pos) + 1 < rampVoice.samplesToCopy 0 16 :=
  ⟨⟨rfl, by rw [rampVoice_delta]; norm_num,
      by rw [rampVoice_delta]; norm_num [MAX_SAMPLER_PITCH], le_refl _, by decide⟩,
    (interpolation_lookahead rampVoice 0 16 3 rfl (by rw [rampVoice_delta]; norm_num)
      (by rw [rampVoice_delta]; norm_num [MAX_SAMPLER_PITCH]) (le_refl _) (by decide)).2.2.1⟩


/-! ## C14, C16: the pitch curve -/

theorem numSamplesUsedLoop_some (v : StreamingSamplerVoice) (p : ℕ → ℚ)
    (hp : v.pitchData = some p) (n i : ℕ) (acc : ℚ) :
    v.numSamplesUsedLoop n i acc =
      acc + ∑ k in Finset.range n, jmin (v.uptimeDelta * p (i + k)) (MAX_SAMPLER_PITCH : ℚ) := by
  induction n generalizing i acc with
  | zero => simp [StreamingSamplerVoice.numSamplesUsedLoop]
  | succ n ih =>
    unfold StreamingSamplerVoice.numSamplesUsedLoop
    simp only [hp]
    rw [ih, Finset.sum_range_succ', add_assoc]
    congr 1
    rw [add_comm]
    congr 1
    apply Finset.sum_congr rfl
    intro k _
    have e : i + 1 + k = i + (k + 1) := by omega
    rw [e]

theorem cursorAt_some (p : ℕ → ℚ) (d vu : ℚ) (st n : ℕ) :
    cursorAt (some p) d vu st n = vu + ∑ k in Finset.range n, d * p (st + k) := by
  induction n with
  | zero => simp [cursorAt]
  | succ n ih =>
    rw [cursorAt, ih, Finset.sum_range_succ, add_assoc]
    rfl

theorem render_voiceUptime (v : StreamingSamplerVoice) (out : AudioSampleBuffer) (st n : ℕ)
    (s : StreamingSamplerSound) (h : v.loader.sound = some s)
    (he : s.hasEnoughSamplesForBlock (v.pos + v.samplesToCopy st n) = true) :
    (v.renderNextBlock out st n).1.voiceUptime =
      cursorAt v.pitchData v.uptimeDelta v.voiceUptime st n := by
  rw [render_playing v out st n s h he]
  exact (renderLoop_spec _ _ _ _ _ _ _ _ _ _).1

theorem rampVoice_pos : rampVoice.pos = 0 := by
  have h : rampVoice.voiceUptime = ((0 : ℕ) : ℚ) := by
    show (0 : ℚ) = ((0 : ℕ) : ℚ)
    simp
  simpa using pos_natCast rampVoice 0 h

/-- C14 fails in the code.  `steepCurveVoice` has `uptimeDelta = 1` and a pitch curve that
is 10 at every frame.  For a block of 2 frames the estimate adds the clamped increment
`min (1 * 10, 8) = 8` per frame, so `numSamplesUsed` minus the starting fractional part is
16; the loop advances `voiceUptime` by the unclamped `1 * 10` per frame, 20 over the
block. -/
theorem pitch_curve_advance_not_clamped :
    steepCurveVoice.uptimeDelta = 1 ∧
    steepCurveVoice.loader.sound = some (rampSound 100) ∧
    (rampSound 100).hasEnoughSamplesForBlock
      (steepCurveVoice.pos + steepCurveVoice.samplesToCopy 0 2) = true ∧
    jmin (steepCurveVoice.uptimeDelta * 10) (MAX_SAMPLER_PITCH : ℚ) = 8 ∧
    steepCurveVoice.numSamplesUsed 0 2 - (steepCurveVoice.voiceUptime - steepCurveVoice.pos)
      = 16 ∧
    cursorAt steepCurveVoice.pitchData steepCurveVoice.uptimeDelta
        steepCurveVoice.voiceUptime 0 1 -
      cursorAt steepCurveVoice.pitchData steepCurveVoice.uptimeDelta
        steepCurveVoice.voiceUptime 0 0 = 10 ∧
    (steepCurveVoice.renderNextBlock (AudioSampleBuffer.alloc 200) 0 2).1.voiceUptime -
      steepCurveVoice.voiceUptime = 20 := by
  have hd : steepCurveVoice.uptimeDelta = 1 := rampVoice_delta
  have hpd : steepCurveVoice.pitchData = some (fun _ => 10) := rfl
  have hu : steepCurveVoice.voiceUptime = 0 := rfl
  have hpos : steepCurveVoice.pos = 0 := rampVoice_pos
  have hused : steepCurveVoice.numSamplesUsed 0 2 = 16 := by
    unfold StreamingSamplerVoice.numSamplesUsed
    rw [numSamplesUsedLoop_some _ _ hpd, hd, hu, hpos]
    norm_num [Finset.sum_range_succ, jmin, MAX_SAMPLER_PITCH]
  have hcopy : steepCurveVoice.samplesToCopy 0 2 = 18 := by
    unfold StreamingSamplerVoice.samplesToCopy
    rw [hused]
    have := truncToInt_natCast 16
    simp only [Nat.cast_ofNat] at this
    rw [this]
    norm_num
  have he : (rampSound 100).hasEnoughSamplesForBlock
      (steepCurveVoice.pos + steepCurveVoice.samplesToCopy 0 2) = true := by
    unfold StreamingSamplerSound.hasEnoughSamplesForBlock
    rw [decide_eq_true_eq, hpos, hcopy, rampSound_length]
    norm_num
  refine ⟨hd, rfl, he, ?_, ?_, ?_, ?_⟩
  · rw [hd]; norm_num [jmin, MAX_SAMPLER_PITCH]
  · rw [hused, hu, hpos]; norm_num
  · rw [hpd, cursorAt_some, cursorAt_some, hd, hu]
    norm_num [Finset.sum_range_succ]
  · rw [render_voiceUptime _ _ _ _ _ rfl he, hpd, cursorAt_some, hd, hu]
    norm_num [Finset.sum_range_succ]


theorem shortCurve_used (behind : ℕ) (hb : behind ≤ 8) :
    (shortCurveVoice behind).numSamplesUsed 4 4 = ((4 * behind : ℕ) : ℚ) := by
  have hd : (shortCurveVoice behind).uptimeDelta = 1 := rampVoice_delta
  have hpd : (shortCurveVoice behind).pitchData =
      some (fun i => if i < 4 then 1 else (behind : ℚ)) := rfl
  have hu : (shortCurveVoice behind).voiceUptime = 0 := rfl
  have hpos : (shortCurveVoice behind).pos = 0 := rampVoice_pos
  have hb8 : ¬ ((8 : ℚ) < (behind : ℚ)) := by
    rw [not_lt]
    exact_mod_cast hb
  unfold StreamingSamplerVoice.numSamplesUsed
  rw [numSamplesUsedLoop_some _ _ hpd, hd, hu, hpos]
  simp [Finset.sum_range_succ, jmin, MAX_SAMPLER_PITCH, hb8]

theorem shortCurve_render (behind : ℕ) (hb : behind ≤ 8) :
    (shortCurveVoice behind).samplesToCopy 4 4 = ((4 * behind + 2 : ℕ) : ℤ) ∧
    ((shortCurveVoice behind).renderNextBlock (AudioSampleBuffer.alloc 200) 4 4).1.voiceUptime
      = ((4 * behind : ℕ) : ℚ) := by
  have hd : (shortCurveVoice behind).uptimeDelta = 1 := rampVoice_delta
  have hpd : (shortCurveVoice behind).pitchData =
      some (fun i => if i < 4 then 1 else (behind : ℚ)) := rfl
  have hu : (shortCurveVoice behind).voiceUptime = 0 := rfl
  have hpos : (shortCurveVoice behind).pos = 0 := rampVoice_pos
  have hcopy : (shortCurveVoice behind).samplesToCopy 4 4 = ((4 * behind + 2 : ℕ) : ℤ) := by
    unfold StreamingSamplerVoice.samplesToCopy
    rw [shortCurve_used behind hb, truncToInt_natCast]
    push_cast
    ring
  have he : (rampSound 100).hasEnoughSamplesForBlock
      ((shortCurveVoice behind).pos + (shortCurveVoice behind).samplesToCopy 4 4) = true := by
    unfold StreamingSamplerSound.hasEnoughSamplesForBlock
    rw [decide_eq_true_eq, hpos, hcopy, rampSound_length]
    have : 0 + (4 * behind + 2) < 100 := by omega
    exact_mod_cast this
  refine ⟨hcopy, ?_⟩
  rw [render_voiceUptime _ _ _ _ _ rfl he, hpd, cursorAt_some, hd, hu]
  simp [Finset.sum_range_succ]

/-- C16 fails in the code.  `shortCurveVoice behind` holds a pitch curve of exactly 4
entries, each 1, followed in memory by the value `behind`.  With `startSample = 4` and
`numSamples = 4` both the estimate and the loop read the curve at indices 4 to 7, outside
`[0, 4)`: two voices whose curves agree on `[0, 4)` and differ only behind the array ask
the loader for different numbers of frames (10 and 14) and end at different cursors
(8 and 12). -/
theorem pitch_curve_read_past_end :
    (∀ i, i < 4 → pitchFactorAt (shortCurveVoice 2).pitchData i =
      pitchFactorAt (shortCurveVoice 3).pitchData i) ∧
    (shortCurveVoice 2).samplesToCopy 4 4 = 10 ∧
    (shortCurveVoice 3).samplesToCopy 4 4 = 14 ∧
    ((shortCurveVoice 2).renderNextBlock (AudioSampleBuffer.alloc 200) 4 4).1.voiceUptime
      = 8 ∧
    ((shortCurveVoice 3).renderNextBlock (AudioSampleBuffer.alloc 200) 4 4).1.voiceUptime
      = 12 := by
  have h2 := shortCurve_render 2 (by decide)
  have h3 := shortCurve_render 3 (by decide)
  refine ⟨fun i hi => ?_, ?_, ?_, ?_, ?_⟩
  · simp [shortCurveVoice, StreamingSamplerVoice.setPitchValues, pitchFactorAt, hi]
  · simpa using h2.1
  · simpa using h3.1
  · have := h2.2
    norm_num at this
    exact this
  · have := h3.2
    norm_num at this
    exact this


/-! ## C17: scratch capacity -/

theorem octaveVoice_delta : octaveVoice.uptimeDelta = 8 := by
  show jmin (getPitchFactor intPow (rampSound 1000000).rootNote
    ((rampSound 1000000).rootNote + 36)) (MAX_SAMPLER_PITCH : ℚ) = 8
  have e : ((((rampSound 1000000).rootNote + 36 - (rampSound 1000000).rootNote : ℤ) : ℚ)) / 12
      = ((3 : ℤ) : ℚ) := by
    rw [add_sub_cancel_left]
    norm_num
  unfold getPitchFactor intPow
  rw [e, Int.floor_intCast]
  norm_num [jmin, MAX_SAMPLER_PITCH]

theorem octaveVoice_inv :
    StreamInv (rampSound 1000000) 11000 octaveVoice.loader 0 :=
  (startNote_stream_inv (rampSound 1000000) 11000 freshVoice.loader 0 (by norm_num)
    (rampSound_wellFormed _) (by decide) rfl rfl rfl).1

/-- C17 fails in the code.  `octaveVoice` was prepared with `prepareToPlay (44100, 512)`, so
its scratch buffer has `512 * MAX_SAMPLER_PITCH = 4096` frames; it plays three octaves above
the root note, so `uptimeDelta = 8 = MAX_SAMPLER_PITCH`, with no pitch curve.  For a block
of `numSamples = 512` frames, `samplesToCopy = 512 * 8 + 2 = 4098`, which exceeds the
scratch buffer's length, and the call does write frame 4097 of the scratch buffer (source
frame 4097, whose value is 4098). -/
theorem scratch_buffer_overrun :
    octaveVoice.samplesForThisBlock.numSamples = 512 * MAX_SAMPLER_PITCH ∧
    octaveVoice.samplesForThisBlock.numSamples = 4096 ∧
    octaveVoice.pitchData = none ∧
    (0 ≤ octaveVoice.uptimeDelta ∧ octaveVoice.uptimeDelta ≤ (MAX_SAMPLER_PITCH : ℚ)) ∧
    octaveVoice.samplesToCopy 0 512 = 4098 ∧
    octaveVoice.samplesForThisBlock.ch0 4097 = 0 ∧
    (octaveVoice.renderNextBlock (AudioSampleBuffer.alloc 512) 0
      512).1.samplesForThisBlock.ch0 4097 = 4098 := by
  have hd8 : octaveVoice.uptimeDelta = ((8 : ℕ) : ℚ) := by rw [octaveVoice_delta]; norm_num
  have hu0 : octaveVoice.voiceUptime = ((0 : ℕ) : ℚ) := by
    show (0 : ℚ) = ((0 : ℕ) : ℚ)
    simp
  have hpos := pos_natCast octaveVoice 0 hu0
  have hused := numSamplesUsed_root octaveVoice 0 8 rfl hd8 hu0 0 512
  have hcopy := samplesToCopy_root octaveVoice 0 8 rfl hd8 hu0 0 512
  have he : (rampSound 1000000).hasEnoughSamplesForBlock
      (octaveVoice.pos + octaveVoice.samplesToCopy 0 512) = true := by
    unfold StreamingSamplerSound.hasEnoughSamplesForBlock
    rw [decide_eq_true_eq, hpos, hcopy, rampSound_length]
    norm_num
  refine ⟨rfl, rfl, rfl, ⟨?_, ?_⟩, ?_, rfl, ?_⟩
  · rw [octaveVoice_delta]; norm_num
  · rw [octaveVoice_delta]; norm_num [MAX_SAMPLER_PITCH]
  · rw [hcopy]; norm_num
  · rw [render_playing octaveVoice _ 0 512 (rampSound 1000000) octaveVoice_inv.sound he]
    dsimp only
    rw [hpos, hcopy, hused, truncToInt_natCast]
    simp only [Int.toNat_ofNat]
    have fc := fill_stream_content (rampSound 1000000) 11000 octaveVoice.loader
      octaveVoice.samplesForThisBlock (512 * 8 + 2) (512 * 8) 0 (by norm_num) octaveVoice_inv
      (by norm_num) (by rw [rampSound_length]; norm_num [streamableFrames]) 4097
      (by norm_num)
    rw [fc.1]
    rw [show (rampSound 1000000).memoryReader.left = (rampReader 1000000).left from
      congrArg MemoryMappedAudioFormatReader.left (setPreloadSize_memoryReader _ _ _)]
    simp [rampReader]
    norm_num


end StreamingSampler
